import Mathlib

/-!
Shallow embedding of the merge resolver of `merge.py` (the transitfeed feed
merger): the `FeedMerger` id generator, the `DataSetMerger` strategies
(`_merge_same_id`, `_merge_by_id_keep_new`), `_schemed_merge` and the field
merge primitives, the `StopMerger`, `ServicePeriodMerger`, `TransferMerger`
and `FareRuleMerger` behaviour, together with proofs of the specification
claims about them.

Python strings are modelled as Lean `String` (Python `None` as `none` of
`Option`), Python integer counters as `Nat`, and float distances as `ℚ`
(geodesic distance computation is an external primitive per the spec and is
passed in as a function parameter).  The external `Schedule` collaborator is
modelled by its interface only - per entity type, a list to iterate and a
find-by-id lookup - exactly the interface the merger uses.
-/

namespace Merge

/-! ## Decimal digits: the model of Python's `'%d' % n` and `int(s)` -/

/-- The ASCII decimal-digit test: the model of the character class `\d` in the
regular expression `(\d+)$` of `FeedMerger._find_largest_id_postfix_number`
(ids are ASCII in GTFS feeds, so the Unicode digits Python's `\d` would also
accept are not modelled). -/
def isDigitChar (c : Char) : Bool := 48 ≤ c.toNat && c.toNat ≤ 57

/-- Decimal rendering with explicit fuel (structural recursion, so that the
kernel can evaluate concrete ids). -/
def natDigitsAux (fuel n : Nat) : List Char :=
  match fuel with
  | 0 => []
  | fuel + 1 =>
    if n < 10 then [Char.ofNat (48 + n)]
    else natDigitsAux fuel (n / 10) ++ [Char.ofNat (48 + n % 10)]

/-- Decimal rendering of a natural number, the model of Python's `'%d' % n`:
`n + 1` units of fuel always suffice since `n / 10 < n`. -/
def natDigits (n : Nat) : List Char := natDigitsAux (n + 1) n

/-- Parse a list of decimal digit characters as a natural number, the model of
Python's `int(s)` on a digit string. -/
def parseDigits (l : List Char) : Nat :=
  l.foldl (fun acc c => acc * 10 + (c.toNat - 48)) 0

/-! ## `FeedMerger` id generation (`merge.py` lines 1594-1681)

The external `Schedule` collaborator is modelled, for the id-seeding scan,
by the seven id fields the scan reads: `_find_largest_id_postfix_number`
iterates `GetAgencyList()`, `get_stop_list()`, ... and reads
`agency_id`, `stop_id`, `route_id`, `trip_id`, `service_id`, `fare_id`,
`shape_id` off each entity; an id value is a string or `None`. -/

/-- The trailing digit run of a character list: the model of matching the
regular expression `(\d+)$` (a `$` right before a final newline is not
modelled; GTFS ids contain no newlines). -/
def extractTrailing (l : List Char) : List Char :=
  (l.reverse.takeWhile isDigitChar).reverse

/-- The model of `extract_postfix_number` of `FeedMerger._find_largest_id_postfix_number`:
`None` and a string with no trailing digits give zero, otherwise the value of
the trailing digit run. -/
def extract_postfix_number (entity_id : Option String) : Nat :=
  match entity_id with
  | none => 0
  | some s => parseDigits (extractTrailing s.data)

/-- The id fields of one schedule, as scanned by
`_find_largest_id_postfix_number`: per entity list, the value of the relevant
id attribute (possibly `None`). -/
structure ScheduleIds where
  agency_ids : List (Option String)
  stop_ids : List (Option String)
  route_ids : List (Option String)
  trip_ids : List (Option String)
  service_ids : List (Option String)
  fare_ids : List (Option String)
  shape_ids : List (Option String)

/-- All id values of the seven id fields of a schedule. -/
def ScheduleIds.allIds (s : ScheduleIds) : List (Option String) :=
  s.agency_ids ++ s.stop_ids ++ s.route_ids ++ s.trip_ids ++ s.service_ids ++
    s.fare_ids ++ s.shape_ids

/-- The model of `FeedMerger._find_largest_id_postfix_number`: the maximum trailing-integer
suffix over every id value of the schedule. -/
def find_largest_id_postfix_number (s : ScheduleIds) : Nat :=
  s.allIds.foldl (fun m i => max m (extract_postfix_number i)) 0

/-- The mutable id-generation state of a `FeedMerger` (`self._idnum`). -/
structure FeedMergerState where
  idnum : Nat
deriving Repr, DecidableEq

/-- The seed computed in `FeedMerger.__init__`:
`max(find(a_schedule), find(b_schedule))`. -/
def FeedMergerState.init (a b : ScheduleIds) : FeedMergerState :=
  ⟨max (find_largest_id_postfix_number a) (find_largest_id_postfix_number b)⟩

/-- Python truthiness of an optional string: `None` and the empty string are
falsy. -/
def pyTruthyStr : Option String → Bool
  | none => false
  | some s => s ≠ ""

/-- The id string built by `FeedMerger.generate_id`:
`'%s_merged_%d' % (entity_id, idnum)` when the base is truthy and
`'merged_%d' % idnum` otherwise. -/
def generated_format (entity_id : Option String) (idnum : Nat) : String :=
  if pyTruthyStr entity_id then
    entity_id.getD "" ++ "_merged_" ++ String.mk (natDigits idnum)
  else
    "merged_" ++ String.mk (natDigits idnum)

/-- The model of `FeedMerger.generate_id`: increment `self._idnum`, then format the new id
from the base. -/
def generate_id (st : FeedMergerState) (entity_id : Option String) :
    String × FeedMergerState :=
  (generated_format entity_id (st.idnum + 1), ⟨st.idnum + 1⟩)

/-- A sequence of `generate_id` calls, one per base argument. -/
def generate_ids (st : FeedMergerState) :
    List (Option String) → List String × FeedMergerState
  | [] => ([], st)
  | b :: bs =>
    let p := generate_id st b
    let q := generate_ids p.2 bs
    (p.1 :: q.1, q.2)

/-! ## Field merge primitives (`merge.py` lines 390-482)

`MergeError` is modelled as the `error` case of `Except String`, carrying the
exception message. -/

/-- An ASCII single quote, used to build the exact Python error messages. -/
def q : String := (Char.ofNat 39).toString

/-- Python `'%s' % v` for an optional string: `None` prints as `"None"`. -/
def pyStr : Option String → String
  | none => "None"
  | some s => s

/-- Python `a or b` on optional strings: `a` when truthy, else `b`. -/
def pyOr (a b : Option String) : Option String :=
  if pyTruthyStr a then a else b

/-- The model of `DataSetMerger._merge_optional`: an error only when both values are
truthy and differ, otherwise `a or b`. -/
def merge_optional (a b : Option String) : Except String (Option String) :=
  if pyTruthyStr a && pyTruthyStr b then
    if a ≠ b then
      Except.error ("values must be identical if both specified (" ++ q ++
        pyStr a ++ q ++ " vs " ++ q ++ pyStr b ++ q ++ ")")
    else Except.ok (pyOr a b)
  else Except.ok (pyOr a b)

/-! ## `DataSetMerger._schemed_merge` (`merge.py` lines 484-514)

An entity is modelled extensionally as a total map from attribute name to
optional string value (`getattr(e, attr, None)`); a scheme is the ordered
list of its Python dict items (attribute name, merge function); the
entity-specific `self._migrate(b, b_schedule, False)` call is a function
parameter. -/

/-- An entity, viewed through `getattr(e, attr, None)`. -/
def AttrEntity : Type := String → Option String

/-- The model of `setattr(e, attr, v)`, extensionally. -/
def setattrFn (e : AttrEntity) (attr : String) (v : Option String) : AttrEntity :=
  fun s => if s = attr then v else e s

/-- The message of the `MergeError` re-raised by `_schemed_merge`:
`"Attribute '%s' could not be merged: %s." % (attr, merge_error)`. -/
def wrapAttrError (attr : String) (e : String) : String :=
  "Attribute " ++ q ++ attr ++ q ++ " could not be merged: " ++ e ++ "."

/-- The attribute loop of `_schemed_merge`, folding the scheme items in order
over the already-migrated base record. -/
def schemed_merge_loop
    (scheme : List (String × (Option String → Option String →
      Except String (Option String)))) (a b : AttrEntity) (migrated : AttrEntity) :
    Except String AttrEntity :=
  match scheme with
  | [] => Except.ok migrated
  | (attr, merger) :: rest =>
    match merger (a attr) (b attr) with
    | Except.error e => Except.error (wrapAttrError attr e)
    | Except.ok v => schemed_merge_loop rest a b (setattrFn migrated attr v)

/-- The model of `DataSetMerger._schemed_merge`: migrate `b` first, then merge the schemed
attributes one by one. -/
def schemed_merge (migrate : AttrEntity → AttrEntity)
    (scheme : List (String × (Option String → Option String →
      Except String (Option String)))) (a b : AttrEntity) :
    Except String AttrEntity :=
  schemed_merge_loop scheme a b (migrate b)

/-! ## The `DataSetMerger` strategy family (`merge.py` lines 516-613)

The strategies are generic over the entity-specific hooks `_get_id`,
`_merge_entities` and `_migrate`; `_get_by_id(schedule, id)` on the external
`Schedule` is find-by-id in the entity list (GTFS ids are unique within one
feed).  `_migrate` threads a mutable-state component `σ` because the real
migrations call `FeedMerger.generate_id`. -/

/-- Which input schedule an entity comes from (`a_schedule`/`b_schedule`). -/
inductive Side
  | a
  | b
deriving DecidableEq, Repr

/-- The merge problems reported through the problem reporter that the claims
mention. -/
inductive MergeProblem
  | sameIdButNotMerged (id : String) (reason : String)
  | calendarsNotDisjoint
  | mergeNotImplemented
  | fareRulesBroken
deriving DecidableEq, Repr

/-- One call to `DataSetMerger._add(a, b, migrated)`: the original entities
(either may be absent) and the migrated entity inserted into the merged
schedule. -/
structure AddEvent (α : Type) where
  aEnt : Option α
  bEnt : Option α
  migrated : α
deriving DecidableEq, Repr

/-- The entity-specific hooks a concrete `DataSetMerger` subclass supplies.
`report` models `_reportsame_id_but_not_merged` (overridden to do nothing by
the service-period and trip mergers). -/
structure DataSetHooks (σ α ι : Type) [DecidableEq ι] where
  getId : α → ι
  mergeEntities : α → α → Except String α
  migrate : α → Side → Bool → σ → α × σ
  report : ι → String → Option MergeProblem

/-- The model of `_get_by_id` on the modelled `Schedule`: find the entity with the id. -/
def getById {α ι : Type} [DecidableEq ι] (getId : α → ι) (l : List α) (i : ι) :
    Option α :=
  l.find? (fun e => getId e = i)

/-- The model of `DataSetMerger._has_id`: whether `_get_by_id` succeeds. -/
def has_id {α ι : Type} [DecidableEq ι] (getId : α → ι) (l : List α) (i : ι) :
    Bool :=
  (getById getId l i).isSome

/-- The accumulator of the first loop of `_merge_same_id`. -/
structure SameIdPass (α : Type) where
  adds : List (AddEvent α)
  aNotMerged : List α
  bNotMerged : List α
  problems : List MergeProblem
  numMerged : Nat

/-- One iteration of the first loop of `_merge_same_id`: look up `x`'s id in
`B`; merge on success, otherwise record the pair as unmerged and report. -/
def same_id_step {σ α ι : Type} [DecidableEq ι] (H : DataSetHooks σ α ι)
    (B : List α) (x : α) (acc : SameIdPass α) : SameIdPass α :=
  match getById H.getId B (H.getId x) with
  | none => { acc with aNotMerged := acc.aNotMerged ++ [x] }
  | some b =>
    match H.mergeEntities x b with
    | Except.ok m =>
      { acc with
        adds := acc.adds ++ [⟨some x, some b, m⟩],
        numMerged := acc.numMerged + 1 }
    | Except.error e =>
      { acc with
        aNotMerged := acc.aNotMerged ++ [x],
        bNotMerged := acc.bNotMerged ++ [b],
        problems := acc.problems ++ (H.report (H.getId x) e).toList }

/-- The first loop of `_merge_same_id` over the `A`-entities. -/
def same_id_loop1 {σ α ι : Type} [DecidableEq ι] (H : DataSetHooks σ α ι)
    (B : List α) : List α → SameIdPass α → SameIdPass α
  | [], acc => acc
  | x :: xs, acc => same_id_loop1 H B xs (same_id_step H B x acc)

/-- Build the `_add(a, None, ...)` / `_add(None, b, ...)` event of a migrated
unmerged entity. -/
def mkUnmergedEvent {α : Type} (side : Side) (x m : α) : AddEvent α :=
  match side with
  | Side.a => ⟨some x, none, m⟩
  | Side.b => ⟨none, some x, m⟩

/-- The final migration loops of `_merge_same_id`: each still-unmerged entity
is migrated with `newid = _has_id(other_schedule, _get_id(entity))`. -/
def migrate_not_merged {σ α ι : Type} [DecidableEq ι] (H : DataSetHooks σ α ι)
    (other : List α) (side : Side) : List α → σ → List (AddEvent α) × σ
  | [], st => ([], st)
  | x :: xs, st =>
    let newid := has_id H.getId other (H.getId x)
    let p := H.migrate x side newid st
    let r := migrate_not_merged H other side xs p.2
    (mkUnmergedEvent side x p.1 :: r.1, r.2)

/-- The result of one `merge_data_sets`-level strategy run. -/
structure StrategyResult (σ α : Type) where
  adds : List (AddEvent α)
  problems : List MergeProblem
  numMerged : Nat
  numNotMergedA : Nat
  numNotMergedB : Nat
  state : σ

/-- The model of `DataSetMerger._merge_same_id`: pair same-id entities, merging where the
entity merge succeeds; then mark `B`-entities with no `A` counterpart; then
migrate all unmerged entities of `A` and of `B`, regenerating an id exactly
when the original id exists in the other feed. -/
def merge_same_id {σ α ι : Type} [DecidableEq ι] (H : DataSetHooks σ α ι)
    (A B : List α) (st : σ) : StrategyResult σ α :=
  let p1 := same_id_loop1 H B A ⟨[], [], [], [], 0⟩
  let bNM := p1.bNotMerged ++
    B.filter (fun b => (getById H.getId A (H.getId b)).isNone)
  let ra := migrate_not_merged H B Side.a p1.aNotMerged st
  let rb := migrate_not_merged H A Side.b bNM ra.2
  { adds := p1.adds ++ ra.1 ++ rb.1,
    problems := p1.problems,
    numMerged := p1.numMerged,
    numNotMergedA := p1.aNotMerged.length,
    numNotMergedB := bNM.length,
    state := rb.2 }

/-- One Python dict assignment `d[k] = v`: replace the value in place if the
key is present, else append the new key at the end. -/
def pyDictUpsert {ι γ : Type} [DecidableEq ι] :
    List (ι × γ) → ι → γ → List (ι × γ)
  | [], k, v => [(k, v)]
  | (k', v') :: rest, k, v =>
    if k' = k then (k, v) :: rest else (k', v') :: pyDictUpsert rest k v

/-- A Python dict built by inserting each element of a list under its key. -/
def pyDictOfKeyed {ι γ : Type} [DecidableEq ι] (key : γ → ι) (l : List γ) :
    List (ι × γ) :=
  l.foldl (fun d x => pyDictUpsert d (key x) x) []

/-- Python `d[k]` / `k in d` lookup. -/
def lookupDict {ι γ : Type} [DecidableEq ι] (d : List (ι × γ)) (k : ι) :
    Option γ :=
  (d.find? (fun e => e.1 = k)).map (fun e => e.2)

/-- All of `migrate` over one schedule's entities, keeping (original,
migrated) pairs, threading the state: the first half of
`_merge_by_id_keep_new`.  (`TransferMerger._migrate` takes no `newid`
argument; the flag is passed as `False` and concrete hooks ignore it.) -/
def migrate_all {σ α ι : Type} [DecidableEq ι] (H : DataSetHooks σ α ι)
    (side : Side) : List α → σ → List (α × α) × σ
  | [], st => ([], st)
  | x :: xs, st =>
    let p := H.migrate x side false st
    let r := migrate_all H side xs p.2
    ((x, p.1) :: r.1, r.2)

/-- The model of `DataSetMerger._merge_by_id_keep_new`: migrate everything first, index
both sides by *migrated* id in Python dicts, keep every entry of `B`'s dict,
and keep an entry of `A`'s dict only when its migrated id is absent from
`B`'s dict. -/
def merge_by_id_keep_new {σ α ι : Type} [DecidableEq ι]
    (H : DataSetHooks σ α ι) (A B : List α) (st : σ) :
    List (AddEvent α) × σ :=
  let pa := migrate_all H Side.a A st
  let pb := migrate_all H Side.b B pa.2
  let aDict := pyDictOfKeyed (fun p => H.getId p.2) pa.1
  let bDict := pyDictOfKeyed (fun p => H.getId p.2) pb.1
  let addsB := bDict.map (fun e => AddEvent.mk none (some e.2.1) e.2.2)
  let addsA := aDict.filterMap (fun e =>
    if (lookupDict bDict e.1).isSome then none
    else some (AddEvent.mk (some e.2.1) none e.2.2))
  (addsB ++ addsA, pb.2)

/-- The condition under which the first loop of `_merge_same_id` leaves an
`A`-entity unmerged: no same-id entity in `B`, or the entity merge failed. -/
def sameIdFails {σ α ι : Type} [DecidableEq ι] (H : DataSetHooks σ α ι)
    (B : List α) (x : α) : Prop :=
  getById H.getId B (H.getId x) = none ∨
    ∃ b e, getById H.getId B (H.getId x) = some b ∧
      H.mergeEntities x b = Except.error e

/-- The hooks used to exercise the generic strategies at concrete inputs:
entities are (id, payload) pairs; a merge succeeds only on equal payloads;
migration with `newid` set marks the id. -/
def testHooks : DataSetHooks Unit (String × Nat) String where
  getId := fun p => p.1
  mergeEntities := fun a b =>
    if a.2 = b.2 then Except.ok b else Except.error "payload"
  migrate := fun x _ newid _ =>
    (if newid then (x.1 ++ "+", x.2) else x, ())
  report := fun i e => some (MergeProblem.sameIdButNotMerged i e)

/-! ## `TransferMerger` (`merge.py` lines 1279-1326) -/

/-- A `transfers.txt` row, with the fields `TransferMerger` reads. -/
structure Transfer where
  from_stop_id : String
  to_stop_id : String
  transfer_type : Nat
deriving DecidableEq, Repr

/-- Modelled from the spec: `Transfer._ID()`.  `GtfsObjectBase` is not among
the sources; `Transfer` declares its id columns as
`['from_stop_id', 'to_stop_id']` and the merger docstring identifies a
transfer by that pair. -/
def Transfer.tid (t : Transfer) : String × String :=
  (t.from_stop_id, t.to_stop_id)

/-- The model of `TransferMerger` hooks: `_migrate` copies the transfer and rewrites a
truthy `from_stop_id`/`to_stop_id` through the stop merge map (`stopMap`
models `schedule.GetStop(...)._migrated_entity.stop_id`); transfers are never
field-merged, and `TransferMerger._migrate` takes no `newid` argument. -/
def transferHooks (stopMap : Side → String → String) :
    DataSetHooks Unit Transfer (String × String) where
  getId := Transfer.tid
  mergeEntities := fun _ _ => Except.error "not implemented"
  migrate := fun t side _ _ =>
    ({ t with
        from_stop_id := if t.from_stop_id ≠ "" then stopMap side t.from_stop_id
          else t.from_stop_id,
        to_stop_id := if t.to_stop_id ≠ "" then stopMap side t.to_stop_id
          else t.to_stop_id }, ())
  report := fun _ _ => none

/-! ## `ServicePeriodMerger` (`merge.py` lines 1089-1232) and the pipeline

`calendar.txt` dates are 8-digit `YYYYMMDD` strings, on which Python's
lexicographic string comparison coincides with numeric comparison, so a date
string is carried as its numeric value.  `disjoin_calendars` calls
`max(start_date, 0)` with the *integer* `0` and `get_date_range` compares
possibly-`None` dates, so values are modelled with Python 2's cross-type
ordering (`None` below every int, ints below every string), under which the
module runs (`merge.py` keeps the `from __future__ import print_function`
Python 2 compatibility header). -/

/-- A value of the service-period date fields: `None`, a Python int, or an
8-digit date string carried as its numeric value. -/
inductive PyV
  | none
  | int (n : Nat)
  | str (n : Nat)
deriving DecidableEq, Repr

/-- The Python 2 cross-type rank: `None` < ints < strings. -/
def PyV.rank : PyV → Nat
  | PyV.none => 0
  | PyV.int _ => 1
  | PyV.str _ => 2

/-- Python 2 `<` on these values. -/
def pyLt : PyV → PyV → Bool
  | PyV.int a, PyV.int b => a < b
  | PyV.str a, PyV.str b => a < b
  | x, y => x.rank < y.rank

/-- Python 2 `<=` (equivalently `not (b < a)` in this total order). -/
def pyLe (a b : PyV) : Bool := !(pyLt b a)

/-- Python `max(a, b)`: the second argument only wins when strictly
greater. -/
def pyMax (a b : PyV) : PyV := if pyLt a b then b else a

/-- Python `min(a, b)`: the second argument only wins when strictly
smaller. -/
def pyMin (a b : PyV) : PyV := if pyLt b a then b else a

/-- Python truthiness of such a value (`''` is modelled by `PyV.none`, since
both are falsy and compare below every 8-digit date string). -/
def pyTruthyV : PyV → Bool
  | PyV.none => false
  | PyV.int n => n ≠ 0
  | PyV.str _ => true

/-- A `ServicePeriod`, with the fields the merger reads: id, the weekly
pattern, the validity range, and the date exceptions
(date ↦ exception type, `1` = add service, `2` = remove service). -/
structure ServicePeriod where
  service_id : String
  day_of_week : List Bool
  start_date : PyV
  end_date : PyV
  date_exceptions : List (Nat × Nat)
deriving DecidableEq, Repr

/-- The model of `ServicePeriod.get_date_range`: the validity range widened by
non-`REMOVE` date exceptions; a missing endpoint is copied from the other
end. -/
def ServicePeriod.get_date_range (sp : ServicePeriod) : PyV × PyV :=
  let r := sp.date_exceptions.foldl
    (fun (se : PyV × PyV) (de : Nat × Nat) =>
      if de.2 = 2 then se
      else
        ((if !pyTruthyV se.1 || pyLt (PyV.str de.1) se.1 then PyV.str de.1
          else se.1),
         (if !pyTruthyV se.2 || pyLt se.2 (PyV.str de.1) then PyV.str de.1
          else se.2)))
    (sp.start_date, sp.end_date)
  match r with
  | (PyV.none, e) => (e, e)
  | (s, PyV.none) => (s, s)
  | (s, e) => (s, e)

/-- The model of `ServicePeriodMerger.check_disjoint_calendars`: `False` as soon as some
`A`-period's date range overlaps some `B`-period's date range. -/
def check_disjoint_calendars (aPeriods bPeriods : List ServicePeriod) : Bool :=
  aPeriods.all (fun a =>
    bPeriods.all (fun b =>
      !(pyLe (pyMax a.get_date_range.1 b.get_date_range.1)
          (pyMin a.get_date_range.2 b.get_date_range.2))))

/-- The `ServicePeriodMerger` hooks: entity merging always fails
(`Cannot merge service periods`), migration copies the period and regenerates
the id on demand, and `_reportsame_id_but_not_merged` is overridden to report
nothing. -/
def servicePeriodHooks : DataSetHooks FeedMergerState ServicePeriod String where
  getId := ServicePeriod.service_id
  mergeEntities := fun _ _ => Except.error "Cannot merge service periods"
  migrate := fun sp _ newid st =>
    if newid then
      let p := generate_id st (some sp.service_id)
      ({ sp with service_id := p.1 }, p.2)
    else (sp, st)
  report := fun _ _ => none

/-- The state a `ServicePeriodMerger.merge_data_sets` call reads and
writes: the id counter, the reported problems, and the add events of the
merged schedule. -/
structure SPMergerState where
  fm : FeedMergerState
  problems : List MergeProblem
  adds : List (AddEvent ServicePeriod)
deriving Repr

/-- The model of `ServicePeriodMerger.merge_data_sets`: blocking failure (with a
`CalendarsNotDisjoint` report) when disjointness is required but violated;
otherwise run `_merge_same_id`, report `MergeNotImplemented`, and
succeed. -/
def sp_merge_data_sets (require_disjoint_calendars : Bool)
    (aPeriods bPeriods : List ServicePeriod) (st : SPMergerState) :
    Bool × SPMergerState :=
  if require_disjoint_calendars ∧
      ¬(check_disjoint_calendars aPeriods bPeriods = true) then
    (false,
      { st with problems := st.problems ++ [MergeProblem.calendarsNotDisjoint] })
  else
    let r := merge_same_id servicePeriodHooks aPeriods bPeriods st.fm
    (true,
      { fm := r.state,
        problems := st.problems ++ r.problems ++
          [MergeProblem.mergeNotImplemented],
        adds := st.adds ++ r.adds })

/-- The model of `FeedMerger.merge_schedules`: run each registered merger's
`merge_data_sets()` in order, stopping with `False` as soon as one fails. -/
def merge_schedules {σ : Type} : List (σ → Bool × σ) → σ → Bool × σ
  | [], st => (true, st)
  | m :: ms, st =>
    let p := m st
    if p.1 then merge_schedules ms p.2 else (false, p.2)

/-- Gregorian leap year, as `datetime` implements it. -/
def isLeapYear (y : Nat) : Bool := (y % 4 = 0 && !(y % 100 = 0)) || y % 400 = 0

/-- Days in a month of the Gregorian calendar. -/
def daysInMonth (y m : Nat) : Nat :=
  if m = 2 then (if isLeapYear y then 29 else 28)
  else if m = 4 ∨ m = 6 ∨ m = 9 ∨ m = 11 then 30 else 31

/-- The model of
`(datetime.date(y, m, d) - datetime.timedelta(days=1)).strftime('%Y%m%d')`
on a numeric `YYYYMMDD` date. -/
def prevDateNum (d : Nat) : Nat :=
  let y := d / 10000
  let m := d / 100 % 100
  let dd := d % 100
  if dd > 1 then y * 10000 + m * 100 + (dd - 1)
  else if m > 1 then y * 10000 + (m - 1) * 100 + daysInMonth y (m - 1)
  else (y - 1) * 10000 + 12 * 100 + 31

/-- The inner `truncate_period` of `disjoin_calendars`: clamp the range into
`[start, end]` and delete the date exceptions falling outside it. -/
def truncate_period (sp : ServicePeriod) (start endV : PyV) : ServicePeriod :=
  { sp with
    start_date := pyMax sp.start_date start,
    end_date := pyMin sp.end_date endV,
    date_exceptions := sp.date_exceptions.filter (fun k =>
      !(pyLt (PyV.str k.1) start || pyLt endV (PyV.str k.1))) }

/-- The model of `ServicePeriodMerger.disjoin_calendars`: truncate every `A`-period to
`[0, day before cutoff]` and every `B`-period to `[cutoff, '9'*8]`. -/
def disjoin_calendars (aPeriods bPeriods : List ServicePeriod)
    (cutoff : Nat) : List ServicePeriod × List ServicePeriod :=
  let before := prevDateNum cutoff
  (aPeriods.map (fun a => truncate_period a (PyV.int 0) (PyV.str before)),
   bPeriods.map (fun b => truncate_period b (PyV.str cutoff)
     (PyV.str 99999999)))

/-- A valid `YYYYMMDD` date number: at most 8 digits, month `01`-`12`, day
`01`-`31`. -/
def validDateNum (d : Nat) : Bool :=
  d ≤ 99999999 && 1 ≤ d / 100 % 100 && d / 100 % 100 ≤ 12 &&
    1 ≤ d % 100 && d % 100 ≤ 31

/-! ## `StopMerger` (`merge.py` lines 899-1038)

`transitfeed.ApproximateDistanceBetweenStops` is the external geodesic
distance primitive; it is passed in as a function `dist` returning metres as
a rational.  A `Stop` carries the fields the merger reads. -/

/-- A `stops.txt` row, with the fields `StopMerger` reads. -/
structure Stop where
  stop_id : String
  stop_name : String
  zone_id : Option String
  location_type : Nat
  parent_station : Option String
deriving DecidableEq, Repr

/-- The model of `DataSetMerger._merge_identical` at a typed field: error unless equal,
result taken from the new entity.  (The message elides the `%s`-interpolated
values.) -/
def merge_identical {γ : Type} [DecidableEq γ] (a b : γ) : Except String γ :=
  if a = b then Except.ok b else Except.error "values must be identical"

/-- Python `str.lower()` (ASCII), applied character-wise. -/
def strLower (s : String) : String := String.mk (s.data.map Char.toLower)

/-- The model of `DataSetMerger._merge_identical_case_insensitive`: error unless equal
ignoring case; the second string's casing wins. -/
def merge_identical_case_insensitive (a b : String) : Except String String :=
  if strLower a = strLower b then Except.ok b
  else Except.error "values must be the same (case insensitive)"

/-- The model of `StopMerger._merge_entities`: the distance gate followed by the scheme
`stop_id`/`stop_name`/`zone_id`/`location_type` applied over the migrated
copy of `b` (`newid=False` migration copies every field). -/
def stop_merge_entities (largest_stop_distance : ℚ)
    (dist : Stop → Stop → ℚ) (a b : Stop) : Except String Stop :=
  if dist a b > largest_stop_distance then
    Except.error "Stops are too far apart"
  else do
    let sid ← (merge_identical a.stop_id b.stop_id).mapError
      (wrapAttrError "stop_id")
    let sname ← (merge_identical_case_insensitive a.stop_name
      b.stop_name).mapError (wrapAttrError "stop_name")
    let zid ← (merge_identical a.zone_id b.zone_id).mapError
      (wrapAttrError "zone_id")
    let lt ← (merge_identical a.location_type b.location_type).mapError
      (wrapAttrError "location_type")
    Except.ok
      { b with
        stop_id := sid
        stop_name := sname
        zone_id := zid
        location_type := lt }

/-- The model of `StopMerger._migrate`: copy the stop, regenerating the id on demand. -/
def stop_migrate (st : FeedMergerState) (s : Stop) (newid : Bool) :
    Stop × FeedMergerState :=
  if newid then
    let p := generate_id st (some s.stop_id)
    ({ s with stop_id := p.1 }, p.2)
  else (s, st)

/-- The `StopMerger` hooks for `_merge_same_id`. -/
def stopHooks (largest_stop_distance : ℚ) (dist : Stop → Stop → ℚ) :
    DataSetHooks FeedMergerState Stop String where
  getId := Stop.stop_id
  mergeEntities := stop_merge_entities largest_stop_distance dist
  migrate := fun s _ newid st => stop_migrate st s newid
  report := fun i e => some (MergeProblem.sameIdButNotMerged i e)

/-- The `(a, b, merged_stop)` triples `StopMerger._add` collects in
`self._merged`. -/
def merged_triples (adds : List (AddEvent Stop)) :
    List (Stop × Stop × Stop) :=
  adds.filterMap (fun ev =>
    match ev.aEnt, ev.bEnt with
    | some a, some b => some (a, b, ev.migrated)
    | _, _ => none)

/-- The `(entity, migrated)` pairs collected in `self._a_not_merged` or
`self._b_not_merged`, by side. -/
def unmerged_pairs (side : Side) (adds : List (AddEvent Stop)) :
    List (Stop × Stop) :=
  adds.filterMap (fun ev =>
    match side, ev.aEnt, ev.bEnt with
    | Side.a, some a, none => some (a, ev.migrated)
    | Side.b, none, some b => some (b, ev.migrated)
    | _, _, _ => none)

/-- The model of `merge_map[schedule.GetStop(parent_id)].stop_id`, read off the add
events of the given side. -/
def merge_map_stop_id (adds : List (AddEvent Stop)) (side : Side)
    (parentId : String) : Option String :=
  (adds.find? (fun ev =>
    match side, ev.aEnt, ev.bEnt with
    | Side.a, some s, _ => s.stop_id = parentId
    | Side.b, _, some s => s.stop_id = parentId
    | _, _, _ => false)).map (fun ev => ev.migrated.stop_id)

/-- The accumulated zone maps, output stops and id state of the fix-up
phases of `StopMerger.merge_data_sets`. -/
structure StopFixupState where
  aZone : List (Option String × Option String)
  bZone : List (Option String × Option String)
  output : List Stop
  fm : FeedMergerState
deriving Repr

/-- The merged-stop fix-up loop of `StopMerger.merge_data_sets`: keep `a`'s
`zone_id` (recording it in both zone maps), re-point a truthy
`parent_station` at `b`'s migrated parent, and add the stop to the merged
schedule.  (A parent missing from the feed would raise `KeyError` in Python;
that unreachable case leaves the reference unchanged here.) -/
def stop_merged_phase (adds : List (AddEvent Stop))
    (triples : List (Stop × Stop × Stop)) (st : StopFixupState) :
    StopFixupState :=
  triples.foldl (fun acc t =>
    let m1 := { t.2.2 with zone_id := t.1.zone_id }
    let m2 :=
      if pyTruthyStr m1.parent_station then
        match merge_map_stop_id adds Side.b
            (t.2.1.parent_station.getD "") with
        | some pid => { m1 with parent_station := some pid }
        | none => m1
      else m1
    { acc with
      aZone := pyDictUpsert acc.aZone t.1.zone_id t.1.zone_id,
      bZone := pyDictUpsert acc.bZone t.2.1.zone_id t.2.1.zone_id,
      output := acc.output ++ [m2] }) st

/-- The model of `StopMerger._update_andmigrate_unmerged`: give each unmerged migrated
stop a zone id through the zone map (generating and recording a fresh zone id
at first sight of an unmapped zone), re-point a truthy `parent_station` at
the migrated parent, and add it to the merged schedule. -/
def stop_unmerged_phase (adds : List (AddEvent Stop)) (side : Side) :
    List (Stop × Stop) → (List (Option String × Option String)) →
      FeedMergerState → List Stop →
      (List (Option String × Option String)) × FeedMergerState × List Stop
  | [], zoneMap, fm, output => (zoneMap, fm, output)
  | (stop, migrated) :: rest, zoneMap, fm, output =>
    let zr :=
      match lookupDict zoneMap stop.zone_id with
      | some z => (z, zoneMap, fm)
      | none =>
        let p := generate_id fm stop.zone_id
        (some p.1, pyDictUpsert zoneMap stop.zone_id (some p.1), p.2)
    let m1 := { migrated with zone_id := zr.1 }
    let m2 :=
      if pyTruthyStr stop.parent_station then
        match merge_map_stop_id adds side (stop.parent_station.getD "") with
        | some pid => { m1 with parent_station := some pid }
        | none => m1
      else m1
    stop_unmerged_phase adds side rest zr.2.1 zr.2.2 (output ++ [m2])

/-- The model of `StopMerger.merge_data_sets`: `_merge_same_id`, then the merged-stop
zone/parent fix-up, then the unmerged fix-up for the `A` side and the `B`
side. -/
def stop_merge_data_sets (largest_stop_distance : ℚ)
    (dist : Stop → Stop → ℚ) (A B : List Stop) (st : FeedMergerState) :
    StopFixupState × List MergeProblem :=
  let r := merge_same_id (stopHooks largest_stop_distance dist) A B st
  let s1 := stop_merged_phase r.adds (merged_triples r.adds)
    ⟨[], [], [], r.state⟩
  let ra := stop_unmerged_phase r.adds Side.a
    (unmerged_pairs Side.a r.adds) s1.aZone s1.fm s1.output
  let rb := stop_unmerged_phase r.adds Side.b
    (unmerged_pairs Side.b r.adds) s1.bZone ra.2.1 ra.2.2
  (⟨ra.1, rb.1, rb.2.2, rb.2.1⟩, r.problems)

/-- The concrete stop of feed A in the spec's stop-merging scenario. -/
def stopA : Stop := ⟨"s1", "Central", some "z1", 0, none⟩

/-- The same-id, same-name, same-zone stop of feed B. -/
def stopB : Stop := ⟨"s1", "central", some "z1", 0, none⟩

/-! ## `FareRuleMerger` (`merge.py` lines 1500-1547) -/

/-- A `fare_rules.txt` row, with the id fields the merger translates. -/
structure FareRule where
  fare_id : String
  route_id : Option String
  origin_id : Option String
  destination_id : Option String
  contains_id : Option String
deriving DecidableEq, Repr

/-- A fare attribute with its owned fare rules (`GetFareRuleList`). -/
structure FareInfo where
  fare_id : String
  rules : List FareRule
deriving DecidableEq, Repr

/-- The id translations `FareRuleMerger.merge_data_sets` uses for one source
feed: `merge_map[GetFareAttribute(id)].fare_id`,
`merge_map[GetRoute(id)].route_id` and `zone_map[id]`.  Python indexes dicts
here (a missing key would raise `KeyError`), so the maps are modelled
total. -/
structure FareRuleTranslation where
  fareMap : String → String
  routeMap : String → String
  zoneMap : String → String

/-- Python `v and f(v)` on an optional id: a falsy id (`None` or `''`) is
kept as is, a truthy one is translated. -/
def pyAndMap (v : Option String) (f : String → String) : Option String :=
  match v with
  | none => none
  | some s => if s = "" then some "" else some (f s)

/-- One translated `(fare_id, route_id, origin_id, destination_id,
contains_id)` tuple. -/
def translate_fare_rule (tr : FareRuleTranslation) (r : FareRule) :
    String × Option String × Option String × Option String × Option String :=
  (tr.fareMap r.fare_id,
   pyAndMap r.route_id tr.routeMap,
   pyAndMap r.origin_id tr.zoneMap,
   pyAndMap r.destination_id tr.zoneMap,
   pyAndMap r.contains_id tr.zoneMap)

/-- Python `set.add`: insert unless already present. -/
def pySetInsert {γ : Type} [DecidableEq γ] (s : List γ) (x : γ) : List γ :=
  if x ∈ s then s else s ++ [x]

/-- The inner rule loop of `FareRuleMerger.merge_data_sets`. -/
def insert_rule_list (tr : FareRuleTranslation) :
    List FareRule →
      List (String × Option String × Option String × Option String ×
        Option String) →
      List (String × Option String × Option String × Option String ×
        Option String)
  | [], acc => acc
  | r :: rs, acc =>
    insert_rule_list tr rs (pySetInsert acc (translate_fare_rule tr r))

/-- The outer fare loop of `FareRuleMerger.merge_data_sets`. -/
def insert_fare_list (tr : FareRuleTranslation) :
    List FareInfo →
      List (String × Option String × Option String × Option String ×
        Option String) →
      List (String × Option String × Option String × Option String ×
        Option String)
  | [], acc => acc
  | f :: fs, acc => insert_fare_list tr fs (insert_rule_list tr f.rules acc)

/-- The distinct translated tuple set of both feeds, feed `A` first. -/
def fare_rule_tuples (aFares bFares : List FareInfo)
    (trA trB : FareRuleTranslation) :
    List (String × Option String × Option String × Option String ×
      Option String) :=
  insert_fare_list trB bFares (insert_fare_list trA aFares [])

/-- The model of `FareRuleMerger.merge_data_sets`: one output `FareRule` per distinct
tuple, plus the `fare_rules_broken` warning whenever any rule exists (the
method itself always returns `True`). -/
def fare_rule_merge_data_sets (aFares bFares : List FareInfo)
    (trA trB : FareRuleTranslation) :
    List (String × Option String × Option String × Option String ×
      Option String) × List MergeProblem :=
  let rules := fare_rule_tuples aFares bFares trA trB
  (rules, if rules = [] then [] else [MergeProblem.fareRulesBroken])

theorem char_ofNat_toNat (n : Nat) (h : n < 128) : (Char.ofNat n).toNat = n := by
  have hv : Nat.isValidChar n := Or.inl (by omega)
  simp [Char.ofNat, hv, Char.toNat, Char.ofNatAux, UInt32.toNat, UInt32.ofNatCore,
    BitVec.toNat_ofNat]

theorem parseDigits_append (l₁ l₂ : List Char) :
    parseDigits (l₁ ++ l₂) =
      l₂.foldl (fun acc c => acc * 10 + (c.toNat - 48)) (parseDigits l₁) := by
  simp [parseDigits, List.foldl_append]

theorem natDigitsAux_congr : ∀ fuel₁ fuel₂ n, n < fuel₁ → n < fuel₂ →
    natDigitsAux fuel₁ n = natDigitsAux fuel₂ n := by
  intro fuel₁
  induction fuel₁ with
  | zero =>
    intro fuel₂ n h1 _
    omega
  | succ f ih =>
    intro fuel₂ n h1 h2
    cases fuel₂ with
    | zero => omega
    | succ f2 =>
      simp only [natDigitsAux]
      by_cases h : n < 10
      · simp [h]
      · rw [if_neg h, if_neg h]
        have hq : n / 10 < n := Nat.div_lt_self (by omega) (by omega)
        congr 1
        exact ih f2 (n / 10) (by omega) (by omega)

theorem natDigits_ne_nil (n : Nat) : natDigits n ≠ [] := by
  unfold natDigits natDigitsAux
  by_cases h : n < 10
  · simp [h]
  · simp [h]

theorem parseDigits_natDigits (n : Nat) : parseDigits (natDigits n) = n := by
  induction n using Nat.strong_induction_on with
  | _ n ih =>
    show parseDigits (natDigitsAux (n + 1) n) = n
    rw [show natDigitsAux (n + 1) n =
      (if n < 10 then [Char.ofNat (48 + n)]
        else natDigitsAux n (n / 10) ++ [Char.ofNat (48 + n % 10)]) from rfl]
    by_cases h : n < 10
    · rw [if_pos h]
      simp only [parseDigits, List.foldl]
      rw [char_ofNat_toNat (48 + n) (by omega)]
      omega
    · rw [if_neg h]
      have hq : n / 10 < n := Nat.div_lt_self (by omega) (by omega)
      rw [natDigitsAux_congr n (n / 10 + 1) (n / 10) hq (by omega)]
      rw [parseDigits_append]
      rw [show natDigitsAux (n / 10 + 1) (n / 10) = natDigits (n / 10) from rfl]
      rw [ih (n / 10) hq]
      simp only [List.foldl]
      rw [char_ofNat_toNat (48 + n % 10) (by omega)]
      have := Nat.div_add_mod n 10
      omega

theorem natDigits_isDigit (n : Nat) : ∀ c ∈ natDigits n, isDigitChar c = true := by
  induction n using Nat.strong_induction_on with
  | _ n ih =>
    show ∀ c ∈ natDigitsAux (n + 1) n, isDigitChar c = true
    rw [show natDigitsAux (n + 1) n =
      (if n < 10 then [Char.ofNat (48 + n)]
        else natDigitsAux n (n / 10) ++ [Char.ofNat (48 + n % 10)]) from rfl]
    by_cases h : n < 10
    · rw [if_pos h]
      intro c hc
      simp at hc
      subst hc
      simp [isDigitChar, char_ofNat_toNat (48 + n) (by omega)]
      omega
    · rw [if_neg h]
      have hq : n / 10 < n := Nat.div_lt_self (by omega) (by omega)
      rw [natDigitsAux_congr n (n / 10 + 1) (n / 10) hq (by omega)]
      intro c hc
      rw [List.mem_append] at hc
      rcases hc with hc | hc
      · exact ih (n / 10) hq c hc
      · simp at hc
        subst hc
        simp [isDigitChar, char_ofNat_toNat (48 + n % 10) (by omega)]
        omega

theorem takeWhile_append_of_all (p : Char → Bool) (xs ys : List Char)
    (h : ∀ x ∈ xs, p x = true) :
    (xs ++ ys).takeWhile p = xs ++ ys.takeWhile p := by
  induction xs with
  | nil => simp
  | cons x xs ih =>
    have hx : p x = true := h x (by simp)
    simp only [List.cons_append, List.takeWhile_cons, hx]
    rw [ih (fun y hy => h y (by simp [hy]))]
    simp

theorem extractTrailing_append_digits (q d : List Char)
    (hd : ∀ c ∈ d, isDigitChar c = true) :
    extractTrailing ((q ++ ['_']) ++ d) = d := by
  unfold extractTrailing
  rw [List.reverse_append, List.reverse_append]
  simp only [List.reverse_cons, List.reverse_nil, List.nil_append,
    List.cons_append, List.append_assoc]
  rw [takeWhile_append_of_all isDigitChar d.reverse _
    (fun c hc => hd c (List.mem_reverse.mp hc))]
  have : isDigitChar '_' = false := by decide
  simp [List.takeWhile_cons, this]

/-- The trailing-integer suffix of a generated id is exactly the counter value
used to build it. -/
theorem extract_generated (base : Option String) (n : Nat) :
    extract_postfix_number (some (generated_format base n)) = n := by
  unfold extract_postfix_number generated_format
  by_cases h : pyTruthyStr base = true
  · simp only [h, if_pos]
    have hdata : (base.getD "" ++ "_merged_" ++ String.mk (natDigits n)).data =
        ((base.getD "").data ++ ('_' :: 'm' :: 'e' :: 'r' :: 'g' :: 'e' :: 'd' :: []) ++ ['_']) ++
          natDigits n := by
      show (base.getD "").data ++ "_merged_".data ++ natDigits n = _
      simp only [List.append_assoc]
      rfl
    rw [hdata, extractTrailing_append_digits _ _ (natDigits_isDigit n),
      parseDigits_natDigits]
  · simp only [h]
    simp only [Bool.false_eq_true, if_false]
    have hdata : ("merged_" ++ String.mk (natDigits n)).data =
        (('m' :: 'e' :: 'r' :: 'g' :: 'e' :: 'd' :: []) ++ ['_']) ++ natDigits n := by
      show "merged_".data ++ natDigits n = _
      rfl
    rw [hdata, extractTrailing_append_digits _ _ (natDigits_isDigit n),
      parseDigits_natDigits]

theorem foldl_max_init_le (f : Option String → Nat) (l : List (Option String))
    (init : Nat) : init ≤ l.foldl (fun m i => max m (f i)) init := by
  induction l generalizing init with
  | nil => simp
  | cons x xs ih =>
    simp only [List.foldl]
    exact le_trans (le_max_left _ _) (ih (max init (f x)))

theorem foldl_max_mem_le (f : Option String → Nat) (l : List (Option String))
    (init : Nat) (x : Option String) (hx : x ∈ l) :
    f x ≤ l.foldl (fun m i => max m (f i)) init := by
  induction l generalizing init with
  | nil => simp at hx
  | cons y ys ih =>
    simp only [List.foldl]
    rcases List.mem_cons.mp hx with h | h
    · subst h
      exact le_trans (le_max_right _ _) (foldl_max_init_le f ys _)
    · exact ih _ h

/-- Every id present in a schedule has trailing-integer suffix at most the
seed scanned from it. -/
theorem extract_le_find_largest (s : ScheduleIds) (x : Option String)
    (hx : x ∈ s.allIds) :
    extract_postfix_number x ≤ find_largest_id_postfix_number s :=
  foldl_max_mem_le _ _ _ _ hx

theorem generate_ids_length (st : FeedMergerState) (bs : List (Option String)) :
    (generate_ids st bs).1.length = bs.length := by
  induction bs generalizing st with
  | nil => rfl
  | cons b bs ih => simp [generate_ids, generate_id, ih]

theorem generate_ids_get (st : FeedMergerState) (bs : List (Option String))
    (k : Nat) (hk : k < bs.length) :
    (generate_ids st bs).1.get ⟨k, by rw [generate_ids_length]; exact hk⟩ =
      generated_format (bs.get ⟨k, hk⟩) (st.idnum + k + 1) := by
  induction bs generalizing st k with
  | nil => simp at hk
  | cons b bs ih =>
    cases k with
    | zero => simp [generate_ids, generate_id]
    | succ k =>
      have hk' : k < bs.length := by simpa using hk
      simp only [generate_ids, generate_id, List.get]
      rw [ih ⟨st.idnum + 1⟩ k hk']
      have harith : st.idnum + 1 + k + 1 = st.idnum + (k + 1) + 1 := by omega
      rw [harith]

theorem extract_le_seed (A B : ScheduleIds) (x : Option String)
    (hx : x ∈ A.allIds ++ B.allIds) :
    extract_postfix_number x ≤ (FeedMergerState.init A B).idnum := by
  rcases List.mem_append.mp hx with h | h
  · exact le_trans (extract_le_find_largest A x h) (le_max_left _ _)
  · exact le_trans (extract_le_find_largest B x h) (le_max_right _ _)

/-- C1: every `generate_id` result is `base + "_merged_" + N` (or
`"merged_" + N` for an empty/`None` base) with `N` the incremented counter
seeded at construction from the largest trailing-integer id suffix of either
feed; the results are pairwise distinct and distinct from every id value in
any id field of either input schedule. -/
theorem generate_id_fresh_and_formatted (A B : ScheduleIds)
    (bases : List (Option String)) :
    (∀ k (hk : k < bases.length),
        (generate_ids (FeedMergerState.init A B) bases).1.get
            ⟨k, by rw [generate_ids_length]; exact hk⟩ =
          generated_format (bases.get ⟨k, hk⟩)
            ((FeedMergerState.init A B).idnum + k + 1)) ∧
    (generate_ids (FeedMergerState.init A B) bases).1.Nodup ∧
    (∀ i ∈ (generate_ids (FeedMergerState.init A B) bases).1,
        ∀ x ∈ A.allIds ++ B.allIds, x ≠ some i) := by
  refine ⟨fun k hk => generate_ids_get _ _ k hk, ?_, ?_⟩
  · rw [List.nodup_iff_injective_get]
    intro n m hnm
    have hlen := generate_ids_length (FeedMergerState.init A B) bases
    have hn : (n : Nat) < bases.length := by
      have := n.isLt
      omega
    have hm : (m : Nat) < bases.length := by
      have := m.isLt
      omega
    have en : (generate_ids (FeedMergerState.init A B) bases).1.get n =
        generated_format (bases.get ⟨(n : Nat), hn⟩)
          ((FeedMergerState.init A B).idnum + (n : Nat) + 1) :=
      generate_ids_get (FeedMergerState.init A B) bases n hn
    have em : (generate_ids (FeedMergerState.init A B) bases).1.get m =
        generated_format (bases.get ⟨(m : Nat), hm⟩)
          ((FeedMergerState.init A B).idnum + (m : Nat) + 1) :=
      generate_ids_get (FeedMergerState.init A B) bases m hm
    have hext : extract_postfix_number (some ((generate_ids
          (FeedMergerState.init A B) bases).1.get n)) =
        extract_postfix_number (some ((generate_ids
          (FeedMergerState.init A B) bases).1.get m)) := by rw [hnm]
    rw [en, em, extract_generated, extract_generated] at hext
    exact Fin.ext (by omega)
  · intro i hi x hx
    rcases List.mem_iff_get.mp hi with ⟨n, hn⟩
    have hlen := generate_ids_length (FeedMergerState.init A B) bases
    have hn' : (n : Nat) < bases.length := by
      have := n.isLt
      omega
    have en : (generate_ids (FeedMergerState.init A B) bases).1.get n =
        generated_format (bases.get ⟨(n : Nat), hn'⟩)
          ((FeedMergerState.init A B).idnum + (n : Nat) + 1) :=
      generate_ids_get (FeedMergerState.init A B) bases n hn'
    intro hxi
    have hle := extract_le_seed A B x hx
    rw [hxi] at hle
    rw [← hn, en, extract_generated] at hle
    omega

/-- Witness for C1 at a concrete pair of schedules and base sequence: feed A
holds stop id `"stop10"`, feed B holds route id `"7"`, so the seed is `10`;
the three generated ids are as formatted, distinct, and absent from the
feeds. -/
theorem generate_id_fresh_and_formatted_witness :
    (generate_ids (FeedMergerState.init
        ⟨[], [some "stop10"], [], [], [], [], []⟩
        ⟨[], [], [some "7"], [], [], [], []⟩)
        [some "stop10", none, some ""]).1.get
        ⟨0, by rw [generate_ids_length]; decide⟩ = "stop10_merged_11" := by
  have h := (generate_id_fresh_and_formatted
    ⟨[], [some "stop10"], [], [], [], [], []⟩
    ⟨[], [], [some "7"], [], [], [], []⟩
    [some "stop10", none, some ""]).1 0 (by decide)
  rw [h]
  have hseed : (FeedMergerState.init
      ⟨[], [some "stop10"], [], [], [], [], []⟩
      ⟨[], [], [some "7"], [], [], [], []⟩).idnum = 10 := by decide
  rw [hseed]
  have hd : natDigits 11 = ['1', '1'] := by decide
  show generated_format (some "stop10") 11 = "stop10_merged_11"
  simp [generated_format, pyTruthyStr, hd]

/-- C10: `_merge_optional` treats falsy values (`None`, `""`) as absent: it
raises `MergeError` iff both arguments are truthy and unequal; one truthy
argument is returned as is; two falsy arguments give back `b`; two equal
truthy arguments give back `a`. -/
theorem merge_optional_truthiness (a b : Option String) :
    ((∃ e, merge_optional a b = Except.error e) ↔
      (pyTruthyStr a = true ∧ pyTruthyStr b = true ∧ a ≠ b)) ∧
    (pyTruthyStr a = true → pyTruthyStr b = false →
      merge_optional a b = Except.ok a) ∧
    (pyTruthyStr a = false → pyTruthyStr b = true →
      merge_optional a b = Except.ok b) ∧
    (pyTruthyStr a = false → pyTruthyStr b = false →
      merge_optional a b = Except.ok b) ∧
    (pyTruthyStr a = true → pyTruthyStr b = true → a = b →
      merge_optional a b = Except.ok a) := by
  refine ⟨⟨?_, ?_⟩, ?_, ?_, ?_, ?_⟩
  · intro ⟨e, he⟩
    unfold merge_optional at he
    by_cases ha : pyTruthyStr a <;> by_cases hb : pyTruthyStr b <;>
      by_cases hab : a = b <;> simp [ha, hb, hab] at he ⊢
  · intro ⟨ha, hb, hne⟩
    exact ⟨"values must be identical if both specified (" ++ q ++ pyStr a ++ q ++
        " vs " ++ q ++ pyStr b ++ q ++ ")",
      by unfold merge_optional; simp [ha, hb, hne]⟩
  · intro ha hb
    unfold merge_optional pyOr
    simp [ha, hb]
  · intro ha hb
    unfold merge_optional pyOr
    simp [ha, hb]
  · intro ha hb
    unfold merge_optional pyOr
    simp [ha, hb]
  · intro ha hb hab
    unfold merge_optional pyOr
    simp [ha, hb, hab]

/-- Witness for C10 at concrete values: a truthy first argument with a falsy
second is returned unchanged. -/
theorem merge_optional_truthiness_witness :
    merge_optional (some "http://a") (some "") = Except.ok (some "http://a") :=
  (merge_optional_truthiness (some "http://a") (some "")).2.1 (by decide)
    (by decide)

theorem schemed_merge_loop_frame (scheme) (a b : AttrEntity) (m : AttrEntity)
    (res : AttrEntity) (h : schemed_merge_loop scheme a b m = Except.ok res) :
    ∀ attr, attr ∉ scheme.map Prod.fst → res attr = m attr := by
  induction scheme generalizing m with
  | nil =>
    intro attr _
    simp [schemed_merge_loop] at h
    rw [h]
  | cons p rest ih =>
    intro attr hattr
    obtain ⟨pa, pf⟩ := p
    simp only [schemed_merge_loop] at h
    cases hpf : pf (a pa) (b pa) with
    | error e => rw [hpf] at h; exact absurd h (by simp)
    | ok v =>
      rw [hpf] at h
      have hne : attr ≠ pa := by
        intro hc
        exact hattr (by simp [hc])
      have hrest : attr ∉ rest.map Prod.fst := by
        intro hc
        exact hattr (by simp [hc])
      rw [ih _ h attr hrest]
      simp [setattrFn, hne]

theorem schemed_merge_loop_sets (scheme) (a b : AttrEntity) (m : AttrEntity)
    (res : AttrEntity) (h : schemed_merge_loop scheme a b m = Except.ok res)
    (hnd : (scheme.map Prod.fst).Nodup) :
    ∀ p ∈ scheme, ∃ v, p.2 (a p.1) (b p.1) = Except.ok v ∧ res p.1 = v := by
  induction scheme generalizing m with
  | nil => intro p hp; simp at hp
  | cons hd rest ih =>
    intro p hp
    obtain ⟨pa, pf⟩ := hd
    simp only [schemed_merge_loop] at h
    cases hpf : pf (a pa) (b pa) with
    | error e => rw [hpf] at h; exact absurd h (by simp)
    | ok v =>
      rw [hpf] at h
      rcases List.mem_cons.mp hp with hh | hh
      · subst hh
        refine ⟨v, hpf, ?_⟩
        have hnotin : pa ∉ rest.map Prod.fst := by
          simp only [List.map_cons, List.nodup_cons] at hnd
          exact hnd.1
        rw [schemed_merge_loop_frame rest a b _ res h pa hnotin]
        simp [setattrFn]
      · have hnd' : (rest.map Prod.fst).Nodup := by
          simp only [List.map_cons, List.nodup_cons] at hnd
          exact hnd.2
        exact ih _ h hnd' p hh

/-- C6: `_schemed_merge` migrates `b` first as the base record and overwrites
exactly the schemed attributes with their merge functions' results: on
success, a non-scheme attribute equals the migrated base's value (hence `b`'s
value whenever the migration preserves attributes, as every `newid=False`
migration in the program does), and each schemed attribute equals its merge
function's result; when the first failing scheme function fails on attribute
`attr` with reason `r`, the result is
`MergeError("Attribute 'attr' could not be merged: r.")`. -/
theorem schemed_merge_frame_and_error (migrate : AttrEntity → AttrEntity)
    (scheme : List (String × (Option String → Option String →
      Except String (Option String)))) (a b : AttrEntity) :
    (∀ res, schemed_merge migrate scheme a b = Except.ok res →
      ∀ attr, attr ∉ scheme.map Prod.fst →
        res attr = migrate b attr ∧
        ((∀ s, migrate b s = b s) → res attr = b attr)) ∧
    ((scheme.map Prod.fst).Nodup →
      ∀ res, schemed_merge migrate scheme a b = Except.ok res →
        ∀ p ∈ scheme, ∃ v, p.2 (a p.1) (b p.1) = Except.ok v ∧ res p.1 = v) ∧
    (∀ pre attr f post r, scheme = pre ++ (attr, f) :: post →
      (∀ p ∈ pre, ∃ v, p.2 (a p.1) (b p.1) = Except.ok v) →
      f (a attr) (b attr) = Except.error r →
      schemed_merge migrate scheme a b = Except.error (wrapAttrError attr r)) := by
  refine ⟨?_, ?_, ?_⟩
  · intro res hres attr hattr
    refine ⟨schemed_merge_loop_frame scheme a b _ res hres attr hattr, ?_⟩
    intro hpres
    rw [schemed_merge_loop_frame scheme a b _ res hres attr hattr, hpres]
  · intro hnd res hres
    exact schemed_merge_loop_sets scheme a b _ res hres hnd
  · intro pre attr f post r hs hpre hf
    subst hs
    unfold schemed_merge
    generalize migrate b = m
    induction pre generalizing m with
    | nil =>
      simp only [List.nil_append, schemed_merge_loop]
      rw [hf]
    | cons hd rest ih =>
      obtain ⟨pa, pf⟩ := hd
      rcases hpre (pa, pf) (by simp) with ⟨v, hv⟩
      have hv' : pf (a pa) (b pa) = Except.ok v := hv
      show schemed_merge_loop ((pa, pf) :: (rest ++ (attr, f) :: post)) a b m =
        Except.error (wrapAttrError attr r)
      simp only [schemed_merge_loop]
      rw [hv']
      exact ih (fun p hp => hpre p (by simp [hp])) (setattrFn m pa v)

/-- Witness for C6 at a concrete scheme: merging a two-attribute record where
the scheme only names `"x"` keeps `b`'s `"y"` untouched, and a failing merge
function on `"x"` produces the exact wrapped message. -/
theorem schemed_merge_frame_and_error_witness :
    (∀ res,
      schemed_merge id [("x", fun _ _ => Except.ok (some "v"))]
          (fun _ => none) (fun s => if s = "y" then some "w" else none) =
        Except.ok res → res "y" = some "w") ∧
    schemed_merge id [("x", fun _ _ => Except.error "boom")]
        (fun _ => none) (fun _ => none) =
      Except.error (wrapAttrError "x" "boom") := by
  constructor
  · intro res hres
    have h := ((schemed_merge_frame_and_error id
      [("x", fun _ _ => Except.ok (some "v"))]
      (fun _ => none) (fun s => if s = "y" then some "w" else none)).1 res hres
      "y" (by simp)).2 (fun s => rfl)
    simpa using h
  · exact (schemed_merge_frame_and_error id
      [("x", fun _ _ => Except.error "boom")] (fun _ => none) (fun _ => none)).2.2
      [] "x" (fun _ _ => Except.error "boom") [] "boom" rfl (by simp) rfl

/-- The lookup of `_has_id(schedule, i)` succeeds exactly when the schedule holds an entity
with id `i`. -/
theorem has_id_iff {α ι : Type} [DecidableEq ι] (getId : α → ι) (l : List α)
    (i : ι) : has_id getId l i = true ↔ ∃ y ∈ l, getId y = i := by
  unfold has_id getById
  rw [List.find?_isSome]
  simp

theorem same_id_step_aNM {σ α ι : Type} [DecidableEq ι]
    (H : DataSetHooks σ α ι) (B : List α) (y : α) (acc : SameIdPass α)
    (x : α) :
    x ∈ (same_id_step H B y acc).aNotMerged ↔
      x ∈ acc.aNotMerged ∨ (x = y ∧ sameIdFails H B y) := by
  unfold same_id_step
  split
  · rename_i hy
    simp only [List.mem_append, List.mem_singleton]
    constructor
    · rintro (h | h)
      · exact Or.inl h
      · exact Or.inr ⟨h, Or.inl hy⟩
    · rintro (h | ⟨h, _⟩)
      · exact Or.inl h
      · exact Or.inr h
  · rename_i b hy
    split
    · rename_i m hm
      constructor
      · exact fun h => Or.inl h
      · rintro (h | ⟨hxy, hf | ⟨b', e, hb', he⟩⟩)
        · exact h
        · rw [hy] at hf
          exact absurd hf (by simp)
        · rw [hy] at hb'
          cases hb'
          rw [hm] at he
          exact absurd he (by simp)
    · rename_i e hm
      simp only [List.mem_append, List.mem_singleton]
      constructor
      · rintro (h | h)
        · exact Or.inl h
        · exact Or.inr ⟨h, Or.inr ⟨b, e, hy, hm⟩⟩
      · rintro (h | ⟨h, _⟩)
        · exact Or.inl h
        · exact Or.inr h

theorem same_id_step_bNM {σ α ι : Type} [DecidableEq ι]
    (H : DataSetHooks σ α ι) (B : List α) (y : α) (acc : SameIdPass α)
    (x : α) :
    x ∈ (same_id_step H B y acc).bNotMerged ↔
      x ∈ acc.bNotMerged ∨
        (getById H.getId B (H.getId y) = some x ∧
          ∃ e, H.mergeEntities y x = Except.error e) := by
  unfold same_id_step
  split
  · rename_i hy
    constructor
    · exact fun h => Or.inl h
    · rintro (h | ⟨hx, _⟩)
      · exact h
      · rw [hy] at hx
        exact absurd hx (by simp)
  · rename_i b hy
    split
    · rename_i m hm
      constructor
      · exact fun h => Or.inl h
      · rintro (h | ⟨hx, e, he⟩)
        · exact h
        · rw [hy] at hx
          cases hx
          rw [hm] at he
          exact absurd he (by simp)
    · rename_i e hm
      simp only [List.mem_append, List.mem_singleton]
      constructor
      · rintro (h | h)
        · exact Or.inl h
        · subst h
          exact Or.inr ⟨hy, e, hm⟩
      · rintro (h | ⟨hx, _⟩)
        · exact Or.inl h
        · rw [hy] at hx
          cases hx
          exact Or.inr rfl

theorem same_id_step_adds {σ α ι : Type} [DecidableEq ι]
    (H : DataSetHooks σ α ι) (B : List α) (y : α) (acc : SameIdPass α)
    (ev : AddEvent α) :
    ev ∈ (same_id_step H B y acc).adds ↔
      ev ∈ acc.adds ∨
        (∃ b m, getById H.getId B (H.getId y) = some b ∧
          H.mergeEntities y b = Except.ok m ∧
          ev = ⟨some y, some b, m⟩) := by
  unfold same_id_step
  split
  · rename_i hy
    constructor
    · exact fun h => Or.inl h
    · rintro (h | ⟨b', m', hb', _, _⟩)
      · exact h
      · rw [hy] at hb'
        exact absurd hb' (by simp)
  · rename_i b hy
    split
    · rename_i m hm
      simp only [List.mem_append, List.mem_singleton]
      constructor
      · rintro (h | h)
        · exact Or.inl h
        · exact Or.inr ⟨b, m, hy, hm, h⟩
      · rintro (h | ⟨b', m', hb', hm', hev⟩)
        · exact Or.inl h
        · rw [hy] at hb'
          cases hb'
          rw [hm] at hm'
          cases hm'
          exact Or.inr hev
    · rename_i e hm
      constructor
      · exact fun h => Or.inl h
      · rintro (h | ⟨b', m', hb', hm', _⟩)
        · exact h
        · rw [hy] at hb'
          cases hb'
          rw [hm] at hm'
          exact absurd hm' (by simp)

theorem same_id_loop1_aNM {σ α ι : Type} [DecidableEq ι]
    (H : DataSetHooks σ α ι) (B : List α) (l : List α) (acc : SameIdPass α)
    (x : α) :
    x ∈ (same_id_loop1 H B l acc).aNotMerged ↔
      x ∈ acc.aNotMerged ∨ (x ∈ l ∧ sameIdFails H B x) := by
  induction l generalizing acc with
  | nil => simp [same_id_loop1]
  | cons y ys ih =>
    simp only [same_id_loop1]
    rw [ih, same_id_step_aNM]
    simp only [List.mem_cons]
    constructor
    · rintro ((h | ⟨h, hf⟩) | ⟨h, hf⟩)
      · exact Or.inl h
      · subst h
        exact Or.inr ⟨Or.inl rfl, hf⟩
      · exact Or.inr ⟨Or.inr h, hf⟩
    · rintro (h | ⟨(h | h), hf⟩)
      · exact Or.inl (Or.inl h)
      · subst h
        exact Or.inl (Or.inr ⟨rfl, hf⟩)
      · exact Or.inr ⟨h, hf⟩

theorem same_id_loop1_bNM {σ α ι : Type} [DecidableEq ι]
    (H : DataSetHooks σ α ι) (B : List α) (l : List α) (acc : SameIdPass α)
    (x : α) :
    x ∈ (same_id_loop1 H B l acc).bNotMerged ↔
      x ∈ acc.bNotMerged ∨
        (∃ y ∈ l, getById H.getId B (H.getId y) = some x ∧
          ∃ e, H.mergeEntities y x = Except.error e) := by
  induction l generalizing acc with
  | nil => simp [same_id_loop1]
  | cons y ys ih =>
    simp only [same_id_loop1]
    rw [ih, same_id_step_bNM]
    simp only [List.mem_cons]
    constructor
    · rintro ((h | ⟨hy, hf⟩) | ⟨z, hz, hzz⟩)
      · exact Or.inl h
      · exact Or.inr ⟨y, Or.inl rfl, hy, hf⟩
      · exact Or.inr ⟨z, Or.inr hz, hzz⟩
    · rintro (h | ⟨z, (hz | hz), hzz⟩)
      · exact Or.inl (Or.inl h)
      · subst hz
        exact Or.inl (Or.inr hzz)
      · exact Or.inr ⟨z, hz, hzz⟩

theorem same_id_loop1_adds {σ α ι : Type} [DecidableEq ι]
    (H : DataSetHooks σ α ι) (B : List α) (l : List α) (acc : SameIdPass α)
    (ev : AddEvent α) :
    ev ∈ (same_id_loop1 H B l acc).adds ↔
      ev ∈ acc.adds ∨
        (∃ y ∈ l, ∃ b m, getById H.getId B (H.getId y) = some b ∧
          H.mergeEntities y b = Except.ok m ∧ ev = ⟨some y, some b, m⟩) := by
  induction l generalizing acc with
  | nil => simp [same_id_loop1]
  | cons y ys ih =>
    simp only [same_id_loop1]
    rw [ih, same_id_step_adds]
    simp only [List.mem_cons]
    constructor
    · rintro ((h | ⟨b, m, hb, hm, hev⟩) | ⟨z, hz, hzz⟩)
      · exact Or.inl h
      · exact Or.inr ⟨y, Or.inl rfl, b, m, hb, hm, hev⟩
      · exact Or.inr ⟨z, Or.inr hz, hzz⟩
    · rintro (h | ⟨z, (hz | hz), hzz⟩)
      · exact Or.inl (Or.inl h)
      · subst hz
        exact Or.inl (Or.inr hzz)
      · exact Or.inr ⟨z, hz, hzz⟩

theorem migrate_not_merged_mem {σ α ι : Type} [DecidableEq ι]
    (H : DataSetHooks σ α ι) (other : List α) (side : Side) (l : List α)
    (st : σ) (x : α) (hx : x ∈ l) :
    ∃ st', mkUnmergedEvent side x
        ((H.migrate x side (has_id H.getId other (H.getId x)) st').1) ∈
      (migrate_not_merged H other side l st).1 := by
  induction l generalizing st with
  | nil => simp at hx
  | cons y ys ih =>
    rcases List.mem_cons.mp hx with h | h
    · subst h
      exact ⟨st, by simp [migrate_not_merged]⟩
    · rcases ih (H.migrate y side (has_id H.getId other (H.getId y)) st).2 h
        with ⟨st', hst'⟩
      exact ⟨st', by simp [migrate_not_merged]; right; exact hst'⟩

theorem merge_same_id_adds_def {σ α ι : Type} [DecidableEq ι]
    (H : DataSetHooks σ α ι) (A B : List α) (st : σ) :
    (merge_same_id H A B st).adds =
      (same_id_loop1 H B A ⟨[], [], [], [], 0⟩).adds ++
      (migrate_not_merged H B Side.a
        (same_id_loop1 H B A ⟨[], [], [], [], 0⟩).aNotMerged st).1 ++
      (migrate_not_merged H A Side.b
        ((same_id_loop1 H B A ⟨[], [], [], [], 0⟩).bNotMerged ++
          B.filter (fun b => (getById H.getId A (H.getId b)).isNone))
        (migrate_not_merged H B Side.a
          (same_id_loop1 H B A ⟨[], [], [], [], 0⟩).aNotMerged st).2).1 := rfl

/-- C3: in the `same_id` strategy an unmerged entity is migrated with
`newid = _has_id(other_schedule, its id)` - it receives a freshly generated
id if and only if an entity with its original id exists in the other source
feed (`has_id` holds exactly when such an entity exists); the check is made
independently on the `A` and the `B` side, and when a same-id pair fails to
merge both sides are migrated with `newid = True`. -/
theorem same_id_newid_iff_other_feed_collision {σ α ι : Type} [DecidableEq ι]
    (H : DataSetHooks σ α ι) (A B : List α) (st : σ) :
    (∀ (l : List α) (i : ι),
      has_id H.getId l i = true ↔ ∃ y ∈ l, H.getId y = i) ∧
    (∀ x ∈ A, sameIdFails H B x →
      ∃ st', mkUnmergedEvent Side.a x
          ((H.migrate x Side.a (has_id H.getId B (H.getId x)) st').1) ∈
        (merge_same_id H A B st).adds) ∧
    (∀ x ∈ B, getById H.getId A (H.getId x) = none →
      ∃ st', mkUnmergedEvent Side.b x
          ((H.migrate x Side.b (has_id H.getId A (H.getId x)) st').1) ∈
        (merge_same_id H A B st).adds) ∧
    (∀ x b e, x ∈ A → getById H.getId B (H.getId x) = some b →
      H.mergeEntities x b = Except.error e →
      has_id H.getId B (H.getId x) = true ∧
      has_id H.getId A (H.getId b) = true ∧
      (∃ st', mkUnmergedEvent Side.a x ((H.migrate x Side.a true st').1) ∈
        (merge_same_id H A B st).adds) ∧
      (∃ st', mkUnmergedEvent Side.b b ((H.migrate b Side.b true st').1) ∈
        (merge_same_id H A B st).adds)) := by
  have haNM : ∀ x, x ∈ A → sameIdFails H B x →
      x ∈ (same_id_loop1 H B A ⟨[], [], [], [], 0⟩).aNotMerged := by
    intro x hx hf
    rw [same_id_loop1_aNM]
    exact Or.inr ⟨hx, hf⟩
  refine ⟨fun l i => has_id_iff H.getId l i, ?_, ?_, ?_⟩
  · intro x hx hf
    rcases migrate_not_merged_mem H B Side.a _ st x (haNM x hx hf) with ⟨st', h⟩
    refine ⟨st', ?_⟩
    rw [merge_same_id_adds_def]
    simp only [List.mem_append]
    exact Or.inl (Or.inr h)
  · intro x hx hnone
    have hmem : x ∈ (same_id_loop1 H B A ⟨[], [], [], [], 0⟩).bNotMerged ++
        B.filter (fun b => (getById H.getId A (H.getId b)).isNone) := by
      rw [List.mem_append]
      exact Or.inr (List.mem_filter.mpr ⟨hx, by rw [hnone]; rfl⟩)
    rcases migrate_not_merged_mem H A Side.b _
      (migrate_not_merged H B Side.a
        (same_id_loop1 H B A ⟨[], [], [], [], 0⟩).aNotMerged st).2 x hmem
      with ⟨st', h⟩
    refine ⟨st', ?_⟩
    rw [merge_same_id_adds_def]
    simp only [List.mem_append]
    exact Or.inr h
  · intro x b e hx hby hme
    have hidb : H.getId b = H.getId x := by
      have := List.find?_some hby
      simpa using this
    have h1 : has_id H.getId B (H.getId x) = true := by
      unfold has_id
      rw [hby]
      rfl
    have h2 : has_id H.getId A (H.getId b) = true := by
      rw [hidb]
      exact (has_id_iff H.getId A (H.getId x)).mpr ⟨x, hx, rfl⟩
    have hfx : sameIdFails H B x := Or.inr ⟨b, e, hby, hme⟩
    refine ⟨h1, h2, ?_, ?_⟩
    · rcases migrate_not_merged_mem H B Side.a _ st x (haNM x hx hfx)
        with ⟨st', h⟩
      rw [h1] at h
      refine ⟨st', ?_⟩
      rw [merge_same_id_adds_def]
      simp only [List.mem_append]
      exact Or.inl (Or.inr h)
    · have hmem : b ∈ (same_id_loop1 H B A ⟨[], [], [], [], 0⟩).bNotMerged ++
          B.filter (fun b => (getById H.getId A (H.getId b)).isNone) := by
        rw [List.mem_append]
        refine Or.inl ?_
        rw [same_id_loop1_bNM]
        exact Or.inr ⟨x, hx, hby, e, hme⟩
      rcases migrate_not_merged_mem H A Side.b _
        (migrate_not_merged H B Side.a
          (same_id_loop1 H B A ⟨[], [], [], [], 0⟩).aNotMerged st).2 b hmem
        with ⟨st', h⟩
      rw [h2] at h
      refine ⟨st', ?_⟩
      rw [merge_same_id_adds_def]
      simp only [List.mem_append]
      exact Or.inr h

/-- Witness for C3: a same-id pair with differing payloads fails to merge,
and both sides are then migrated with a fresh id (`newid = True`). -/
theorem same_id_newid_iff_other_feed_collision_witness :
    ∃ st' : Unit, mkUnmergedEvent Side.a ("s", 1)
        ((testHooks.migrate ("s", 1) Side.a true st').1) ∈
      (merge_same_id testHooks [("s", 1)] [("s", 2)] ()).adds :=
  ((same_id_newid_iff_other_feed_collision testHooks [("s", 1)] [("s", 2)]
    ()).2.2.2 ("s", 1) ("s", 2) "payload" (by decide) rfl rfl).2.2.1

/-! ## Python dict lemmas for `_merge_by_id_keep_new` -/

theorem lookupDict_upsert {ι γ : Type} [DecidableEq ι] (d : List (ι × γ))
    (k : ι) (v : γ) (k' : ι) :
    lookupDict (pyDictUpsert d k v) k' =
      if k' = k then some v else lookupDict d k' := by
  induction d with
  | nil =>
    by_cases h : k' = k
    · subst h
      simp [pyDictUpsert, lookupDict, List.find?]
    · have h2 : ¬(k = k') := fun hc => h hc.symm
      simp [pyDictUpsert, lookupDict, List.find?, h, h2]
  | cons e rest ih =>
    obtain ⟨k1, v1⟩ := e
    by_cases h1 : k1 = k
    · subst h1
      by_cases h : k' = k1
      · subst h
        simp [pyDictUpsert, lookupDict, List.find?]
      · have h2 : ¬(k1 = k') := fun hc => h hc.symm
        simp [pyDictUpsert, lookupDict, List.find?, h, h2]
    · simp only [pyDictUpsert, if_neg h1]
      by_cases h : k' = k1
      · subst h
        have h2 : ¬(k' = k) := fun hc => h1 (hc ▸ rfl)
        simp [lookupDict, List.find?, h2]
      · have h2 : ¬(k1 = k') := fun hc => h hc.symm
        by_cases hk : k' = k
        · subst hk
          have := ih
          rw [if_pos rfl] at this
          simp only [lookupDict, List.find?, decide_eq_false h2]
          exact this
        · have := ih
          rw [if_neg hk] at this
          simp only [if_neg hk, lookupDict, List.find?, decide_eq_false h2]
          exact this

theorem mem_keys_upsert {ι γ : Type} [DecidableEq ι] (d : List (ι × γ))
    (k : ι) (v : γ) (k' : ι) :
    k' ∈ (pyDictUpsert d k v).map Prod.fst ↔
      k' ∈ d.map Prod.fst ∨ k' = k := by
  induction d with
  | nil => simp [pyDictUpsert]
  | cons e rest ih =>
    obtain ⟨k1, v1⟩ := e
    by_cases h1 : k1 = k
    · subst h1
      simp [pyDictUpsert]
      tauto
    · simp [pyDictUpsert, h1, ih]
      tauto

theorem nodup_keys_upsert {ι γ : Type} [DecidableEq ι] (d : List (ι × γ))
    (k : ι) (v : γ) (h : (d.map Prod.fst).Nodup) :
    ((pyDictUpsert d k v).map Prod.fst).Nodup := by
  induction d with
  | nil => simp [pyDictUpsert]
  | cons e rest ih =>
    obtain ⟨k1, v1⟩ := e
    simp only [List.map_cons, List.nodup_cons] at h
    by_cases h1 : k1 = k
    · subst h1
      simpa [pyDictUpsert] using h
    · simp only [pyDictUpsert, if_neg h1, List.map_cons, List.nodup_cons]
      refine ⟨?_, ih h.2⟩
      intro hc
      rw [mem_keys_upsert] at hc
      rcases hc with hc | hc
      · exact h.1 hc
      · exact h1 hc

theorem mem_upsert {ι γ : Type} [DecidableEq ι] (d : List (ι × γ)) (k : ι)
    (v : γ) (e : ι × γ) (he : e ∈ pyDictUpsert d k v) :
    e ∈ d ∨ e = (k, v) := by
  induction d with
  | nil =>
    simp [pyDictUpsert] at he
    exact Or.inr he
  | cons e1 rest ih =>
    obtain ⟨k1, v1⟩ := e1
    by_cases h1 : k1 = k
    · subst h1
      rw [show pyDictUpsert ((k1, v1) :: rest) k1 v = (k1, v) :: rest by
        simp [pyDictUpsert]] at he
      rcases List.mem_cons.mp he with h | h
      · exact Or.inr h
      · exact Or.inl (List.mem_cons.mpr (Or.inr h))
    · rw [show pyDictUpsert ((k1, v1) :: rest) k v =
          (k1, v1) :: pyDictUpsert rest k v by simp [pyDictUpsert, h1]] at he
      rcases List.mem_cons.mp he with h | h
      · exact Or.inl (List.mem_cons.mpr (Or.inl h))
      · rcases ih h with h2 | h2
        · exact Or.inl (List.mem_cons.mpr (Or.inr h2))
        · exact Or.inr h2

theorem mem_iff_lookup_of_nodup {ι γ : Type} [DecidableEq ι]
    (d : List (ι × γ)) (hnd : (d.map Prod.fst).Nodup) (k : ι) (v : γ) :
    (k, v) ∈ d ↔ lookupDict d k = some v := by
  induction d with
  | nil => simp [lookupDict]
  | cons e rest ih =>
    obtain ⟨k1, v1⟩ := e
    simp only [List.map_cons, List.nodup_cons] at hnd
    by_cases h1 : k1 = k
    · subst h1
      constructor
      · intro h
        rcases List.mem_cons.mp h with h | h
        · cases h
          simp [lookupDict, List.find?]
        · exfalso
          exact hnd.1 (by simpa using List.mem_map_of_mem Prod.fst h)
      · intro h
        simp [lookupDict, List.find?] at h
        exact List.mem_cons.mpr (Or.inl (by rw [h]))
    · constructor
      · intro h
        rcases List.mem_cons.mp h with h | h
        · exfalso
          have hfst : (k, v).1 = (k1, v1).1 := congrArg Prod.fst h
          exact h1 hfst.symm
        · simp only [lookupDict, List.find?, decide_eq_false h1]
          exact (ih hnd.2).mp h
      · intro h
        simp only [lookupDict, List.find?, decide_eq_false h1] at h
        exact List.mem_cons.mpr (Or.inr ((ih hnd.2).mpr h))

theorem pyDictOfKeyed_snoc {ι γ : Type} [DecidableEq ι] (key : γ → ι)
    (l : List γ) (x : γ) :
    pyDictOfKeyed key (l ++ [x]) =
      pyDictUpsert (pyDictOfKeyed key l) (key x) x := by
  simp [pyDictOfKeyed, List.foldl_append]

theorem lookup_pyDictOfKeyed {ι γ : Type} [DecidableEq ι] (key : γ → ι)
    (l : List γ) (k : ι) :
    lookupDict (pyDictOfKeyed key l) k =
      l.reverse.find? (fun x => key x = k) := by
  induction l using List.reverseRecOn with
  | nil => simp [pyDictOfKeyed, lookupDict]
  | append_singleton l x ih =>
    rw [pyDictOfKeyed_snoc, lookupDict_upsert, List.reverse_append]
    simp only [List.reverse_cons, List.reverse_nil, List.nil_append,
      List.cons_append, List.find?]
    by_cases h : k = key x
    · subst h
      rw [if_pos rfl]
      rw [decide_eq_true rfl]
    · rw [if_neg h]
      have : (decide (key x = k)) = false := decide_eq_false (fun hc => h hc.symm)
      rw [this]
      exact ih

theorem nodup_keys_pyDictOfKeyed {ι γ : Type} [DecidableEq ι] (key : γ → ι)
    (l : List γ) : ((pyDictOfKeyed key l).map Prod.fst).Nodup := by
  induction l using List.reverseRecOn with
  | nil => simp [pyDictOfKeyed]
  | append_singleton l x ih =>
    rw [pyDictOfKeyed_snoc]
    exact nodup_keys_upsert _ _ _ ih

theorem mem_pyDictOfKeyed_key {ι γ : Type} [DecidableEq ι] (key : γ → ι)
    (l : List γ) (e : ι × γ) (he : e ∈ pyDictOfKeyed key l) :
    e.1 = key e.2 := by
  induction l using List.reverseRecOn with
  | nil => simp [pyDictOfKeyed] at he
  | append_singleton l x ih =>
    rw [pyDictOfKeyed_snoc] at he
    rcases mem_upsert _ _ _ _ he with h | h
    · exact ih h
    · subst h
      rfl

/-- C7 counterexample: with two feed-`B` transfers both migrating to the id
`("X", "Y")`, the claim's "every migrated entity from feed B is added to the
output" fails - the first one's migrated copy is never added (the Python
dict keyed by migrated id keeps only the last entity per id, as the
`TransferMerger` docstring itself states: "Only one transfer is processed
per ID"). -/
theorem keep_newer_by_id_counterexample :
    ¬ ∃ ev ∈ (merge_by_id_keep_new (transferHooks (fun _ s => s)) []
        [⟨"X", "Y", 0⟩, ⟨"X", "Y", 1⟩] ()).1,
      ev.bEnt = some ⟨"X", "Y", 0⟩ := by
  decide

/-- C7 amended: in `_merge_by_id_keep_new` every entity of both feeds is
migrated before any id comparison, and ids are compared post-migration; a
migrated entity from feed B is added to the output if and only if it is the
last `B`-entity migrating to its id; a migrated entity from feed A is added
if and only if it is the last `A`-entity migrating to its id and no
`B`-entity migrated to the same id. -/
theorem keep_newer_by_id_last_per_id {σ α ι : Type} [DecidableEq ι]
    (H : DataSetHooks σ α ι) (A B : List α) (st : σ) :
    (∀ p ∈ (migrate_all H Side.b B (migrate_all H Side.a A st).2).1,
      (AddEvent.mk none (some p.1) p.2 ∈ (merge_by_id_keep_new H A B st).1 ↔
        (migrate_all H Side.b B (migrate_all H Side.a A st).2).1.reverse.find?
          (fun q => H.getId q.2 = H.getId p.2) = some p)) ∧
    (∀ p ∈ (migrate_all H Side.a A st).1,
      (AddEvent.mk (some p.1) none p.2 ∈ (merge_by_id_keep_new H A B st).1 ↔
        ((migrate_all H Side.a A st).1.reverse.find?
            (fun q => H.getId q.2 = H.getId p.2) = some p ∧
          ∀ q ∈ (migrate_all H Side.b B (migrate_all H Side.a A st).2).1,
            H.getId q.2 ≠ H.getId p.2))) := by
  have hdef : (merge_by_id_keep_new H A B st).1 =
      (pyDictOfKeyed (fun q : α × α => H.getId q.2)
        (migrate_all H Side.b B (migrate_all H Side.a A st).2).1).map
          (fun e => AddEvent.mk none (some e.2.1) e.2.2) ++
      (pyDictOfKeyed (fun q : α × α => H.getId q.2)
        (migrate_all H Side.a A st).1).filterMap (fun e =>
          if (lookupDict (pyDictOfKeyed (fun q : α × α => H.getId q.2)
              (migrate_all H Side.b B (migrate_all H Side.a A st).2).1)
              e.1).isSome then none
          else some (AddEvent.mk (some e.2.1) none e.2.2)) := rfl
  set pal := (migrate_all H Side.a A st).1 with hpal
  set pbl := (migrate_all H Side.b B (migrate_all H Side.a A st).2).1 with hpbl
  have hBnd := nodup_keys_pyDictOfKeyed (fun q : α × α => H.getId q.2) pbl
  have hAnd := nodup_keys_pyDictOfKeyed (fun q : α × α => H.getId q.2) pal
  constructor
  · intro p _
    rw [hdef]
    constructor
    · intro hmem
      rcases List.mem_append.mp hmem with h | h
      · rcases List.mem_map.mp h with ⟨e, he, heq⟩
        simp only [AddEvent.mk.injEq, Option.some.injEq] at heq
        obtain ⟨-, h21, h22⟩ := heq
        have he2 : e.2 = p := Prod.ext h21 h22
        have hkey : e.1 = H.getId p.2 := by
          rw [← he2]
          exact mem_pyDictOfKeyed_key _ _ _ he
        have hep : e = (H.getId p.2, p) := Prod.ext hkey he2
        rw [hep] at he
        rw [← lookup_pyDictOfKeyed]
        exact (mem_iff_lookup_of_nodup _ hBnd _ _).mp he
      · rcases List.mem_filterMap.mp h with ⟨e, _, heq⟩
        by_cases hc : (lookupDict (pyDictOfKeyed
            (fun q : α × α => H.getId q.2) pbl) e.1).isSome
        · rw [if_pos hc] at heq
          exact absurd heq (by simp)
        · rw [if_neg hc] at heq
          simp at heq
    · intro hfind
      rw [← lookup_pyDictOfKeyed] at hfind
      have hmem := (mem_iff_lookup_of_nodup _ hBnd _ _).mpr hfind
      exact List.mem_append.mpr (Or.inl (List.mem_map.mpr
        ⟨(H.getId p.2, p), hmem, rfl⟩))
  · intro p _
    rw [hdef]
    constructor
    · intro hmem
      rcases List.mem_append.mp hmem with h | h
      · rcases List.mem_map.mp h with ⟨e, _, heq⟩
        simp at heq
      · rcases List.mem_filterMap.mp h with ⟨e, he, heq⟩
        by_cases hc : (lookupDict (pyDictOfKeyed
            (fun q : α × α => H.getId q.2) pbl) e.1).isSome
        · rw [if_pos hc] at heq
          exact absurd heq (by simp)
        · rw [if_neg hc] at heq
          simp only [Option.some.injEq, AddEvent.mk.injEq] at heq
          obtain ⟨h21, -, h22⟩ := heq
          have he2 : e.2 = p := Prod.ext h21 h22
          have hkey : e.1 = H.getId p.2 := by
            rw [← he2]
            exact mem_pyDictOfKeyed_key _ _ _ he
          have hep : e = (H.getId p.2, p) := Prod.ext hkey he2
          constructor
          · rw [hep] at he
            rw [← lookup_pyDictOfKeyed]
            exact (mem_iff_lookup_of_nodup _ hAnd _ _).mp he
          · intro qq hq
            rw [hkey] at hc
            have hcn : lookupDict (pyDictOfKeyed
                (fun q : α × α => H.getId q.2) pbl) (H.getId p.2) = none :=
              Option.not_isSome_iff_eq_none.mp (by simpa using hc)
            rw [lookup_pyDictOfKeyed] at hcn
            have := List.find?_eq_none.mp hcn qq (List.mem_reverse.mpr hq)
            simpa using this
    · rintro ⟨hfind, hnoB⟩
      rw [← lookup_pyDictOfKeyed] at hfind
      have hmemA := (mem_iff_lookup_of_nodup _ hAnd _ _).mpr hfind
      have hnone : lookupDict (pyDictOfKeyed
          (fun q : α × α => H.getId q.2) pbl) (H.getId p.2) = none := by
        rw [lookup_pyDictOfKeyed]
        rw [List.find?_eq_none]
        intro qq hq
        simpa using hnoB qq (List.mem_reverse.mp hq)
      refine List.mem_append.mpr (Or.inr (List.mem_filterMap.mpr
        ⟨(H.getId p.2, p), hmemA, ?_⟩))
      rw [show ((H.getId p.2, p) : ι × α × α).1 = H.getId p.2 from rfl, hnone]
      rfl

/-- Witness for the amended C7 at concrete transfers: with feed B holding two
transfers migrating to the same id, the later one's migrated copy is in the
output. -/
theorem keep_newer_by_id_last_per_id_witness :
    AddEvent.mk none (some (⟨"X", "Y", 1⟩ : Transfer)) ⟨"X", "Y", 1⟩ ∈
      (merge_by_id_keep_new (transferHooks (fun _ s => s)) []
        [⟨"X", "Y", 0⟩, ⟨"X", "Y", 1⟩] ()).1 :=
  ((keep_newer_by_id_last_per_id (transferHooks (fun _ s => s)) []
      [⟨"X", "Y", 0⟩, ⟨"X", "Y", 1⟩] ()).1
    (⟨"X", "Y", 1⟩, ⟨"X", "Y", 1⟩) (by decide)).mpr (by decide)

theorem pyLt_irrefl (x : PyV) : pyLt x x = false := by
  cases x <;> simp [pyLt, PyV.rank]

theorem pyLe_pyMin_right (x y : PyV) : pyLe (pyMin x y) y = true := by
  unfold pyMin pyLe
  by_cases h : pyLt y x = true
  · rw [if_pos h, pyLt_irrefl]
    rfl
  · rw [if_neg h]
    rw [Bool.not_eq_true] at h
    rw [h]
    rfl

theorem pyLe_right_pyMax (x y : PyV) : pyLe y (pyMax x y) = true := by
  unfold pyMax pyLe
  by_cases h : pyLt x y = true
  · rw [if_pos h, pyLt_irrefl]
    rfl
  · rw [if_neg h]
    rw [Bool.not_eq_true] at h
    rw [h]
    rfl

/-- C2: `merge_schedules` runs the registered mergers in order and returns
`False` at the first merger that fails, leaving the state exactly as that
merger left it - the mergers after it contribute nothing; in particular
`ServicePeriodMerger.merge_data_sets` with `require_disjoint_calendars`
returns `False` and reports `CalendarsNotDisjoint` whenever some `A`-period's
date range overlaps some `B`-period's, and with the flag off it skips the
check and returns `True`. -/
theorem merge_schedules_aborts_on_first_failure :
    (∀ (σ : Type) (ms₁ : List (σ → Bool × σ)) (m : σ → Bool × σ)
        (ms₂ : List (σ → Bool × σ)) (st st₁ st₂ : σ),
      merge_schedules ms₁ st = (true, st₁) → m st₁ = (false, st₂) →
      merge_schedules (ms₁ ++ m :: ms₂) st = (false, st₂)) ∧
    (∀ (aP bP : List ServicePeriod) (st : SPMergerState)
        (a b : ServicePeriod), a ∈ aP → b ∈ bP →
      pyLe (pyMax a.get_date_range.1 b.get_date_range.1)
        (pyMin a.get_date_range.2 b.get_date_range.2) = true →
      sp_merge_data_sets true aP bP st =
        (false, { st with
          problems := st.problems ++ [MergeProblem.calendarsNotDisjoint] })) ∧
    (∀ (aP bP : List ServicePeriod) (st : SPMergerState),
      (sp_merge_data_sets false aP bP st).1 = true) := by
  refine ⟨?_, ?_, ?_⟩
  · intro σ ms₁
    induction ms₁ with
    | nil =>
      intro m ms₂ st st₁ st₂ h1 h2
      have hst : st = st₁ := by
        simpa [merge_schedules] using h1
      subst hst
      show merge_schedules (m :: ms₂) st = (false, st₂)
      unfold merge_schedules
      rw [h2]
      simp
    | cons m0 ms ih =>
      intro m ms₂ st st₁ st₂ h1 h2
      rcases hm0 : m0 st with ⟨b, st'⟩
      unfold merge_schedules at h1
      rw [hm0] at h1
      cases b with
      | false => simp at h1
      | true =>
        simp only [if_pos] at h1
        show merge_schedules (m0 :: (ms ++ m :: ms₂)) st = (false, st₂)
        unfold merge_schedules
        rw [hm0]
        simp only [if_pos]
        exact ih m ms₂ st' st₁ st₂ h1 h2
  · intro aP bP st a b ha hb hover
    have hcheck : check_disjoint_calendars aP bP = false := by
      by_contra hc
      rw [Bool.not_eq_false] at hc
      have h1 := List.all_eq_true.mp hc a ha
      have h2 := List.all_eq_true.mp h1 b hb
      rw [hover] at h2
      simp at h2
    unfold sp_merge_data_sets
    rw [if_pos ⟨rfl, by rw [hcheck]; simp⟩]
  · intro aP bP st
    unfold sp_merge_data_sets
    rw [if_neg (by simp)]

/-- Witness for C2: a pipeline whose first merger is the service-period
merger over two overlapping periods (with disjointness required) aborts with
exactly the `CalendarsNotDisjoint` report, never reaching the second
merger. -/
theorem merge_schedules_aborts_on_first_failure_witness :
    merge_schedules
      [fun st => sp_merge_data_sets true
          [⟨"test1", List.replicate 7 true, PyV.str 20070101,
            PyV.str 20090101, []⟩]
          [⟨"test2", List.replicate 7 true, PyV.str 20080101,
            PyV.str 20100101, []⟩] st,
        fun st => (true, st)]
      ⟨⟨0⟩, [], []⟩ =
      (false, ⟨⟨0⟩, [MergeProblem.calendarsNotDisjoint], []⟩) :=
  merge_schedules_aborts_on_first_failure.1 SPMergerState []
    (fun st => sp_merge_data_sets true
      [⟨"test1", List.replicate 7 true, PyV.str 20070101, PyV.str 20090101, []⟩]
      [⟨"test2", List.replicate 7 true, PyV.str 20080101, PyV.str 20100101, []⟩]
      st)
    [fun st => (true, st)] ⟨⟨0⟩, [], []⟩ ⟨⟨0⟩, [], []⟩
    ⟨⟨0⟩, [MergeProblem.calendarsNotDisjoint], []⟩ rfl
    (merge_schedules_aborts_on_first_failure.2.1
      [⟨"test1", List.replicate 7 true, PyV.str 20070101, PyV.str 20090101, []⟩]
      [⟨"test2", List.replicate 7 true, PyV.str 20080101, PyV.str 20100101, []⟩]
      ⟨⟨0⟩, [], []⟩
      ⟨"test1", List.replicate 7 true, PyV.str 20070101, PyV.str 20090101, []⟩
      ⟨"test2", List.replicate 7 true, PyV.str 20080101, PyV.str 20100101, []⟩
      (by decide) (by decide) (by decide))

/-- C5: `disjoin_calendars("20080101")` is a total function that truncates
every `A`-period to end at `"20071231"` (the computed day before the cutoff)
and every `B`-period to start at `"20080101"`, and deletes exactly the
`A`-exceptions dated on or after the cutoff and the `B`-exceptions dated
before it (for valid `YYYYMMDD` exception dates).  The integer `0` lower
bound of the `A`-side truncation is inert under Python 2's int-below-string
ordering. -/
theorem disjoin_calendars_cutoff_20080101 (aP bP : List ServicePeriod)
    (hA : ∀ p ∈ aP, ∀ k ∈ p.date_exceptions, validDateNum k.1 = true)
    (hB : ∀ p ∈ bP, ∀ k ∈ p.date_exceptions, validDateNum k.1 = true) :
    (disjoin_calendars aP bP 20080101).1 =
        aP.map (fun p => truncate_period p (PyV.int 0) (PyV.str 20071231)) ∧
    (disjoin_calendars aP bP 20080101).2 =
        bP.map (fun p =>
          truncate_period p (PyV.str 20080101) (PyV.str 99999999)) ∧
    (∀ p ∈ (disjoin_calendars aP bP 20080101).1,
      pyLe p.end_date (PyV.str 20071231) = true) ∧
    (∀ p ∈ (disjoin_calendars aP bP 20080101).2,
      pyLe (PyV.str 20080101) p.start_date = true) ∧
    (∀ p ∈ aP,
      (truncate_period p (PyV.int 0) (PyV.str 20071231)).date_exceptions =
        p.date_exceptions.filter (fun k => decide (k.1 < 20080101))) ∧
    (∀ p ∈ bP,
      (truncate_period p (PyV.str 20080101)
          (PyV.str 99999999)).date_exceptions =
        p.date_exceptions.filter (fun k => !decide (k.1 < 20080101))) := by
  have hbefore : prevDateNum 20080101 = 20071231 := by decide
  have hfst : (disjoin_calendars aP bP 20080101).1 =
      aP.map (fun p => truncate_period p (PyV.int 0) (PyV.str 20071231)) := by
    unfold disjoin_calendars
    rw [hbefore]
  have hsnd : (disjoin_calendars aP bP 20080101).2 =
      bP.map (fun p =>
        truncate_period p (PyV.str 20080101) (PyV.str 99999999)) := rfl
  refine ⟨hfst, hsnd, ?_, ?_, ?_, ?_⟩
  · intro p hp
    rw [hfst] at hp
    rcases List.mem_map.mp hp with ⟨p0, _, rfl⟩
    exact pyLe_pyMin_right _ _
  · intro p hp
    rw [hsnd] at hp
    rcases List.mem_map.mp hp with ⟨p0, _, rfl⟩
    exact pyLe_right_pyMax _ _
  · intro p hp
    unfold truncate_period
    refine List.filter_congr ?_
    intro x hx
    have hv := hA p hp x hx
    unfold validDateNum at hv
    simp only [Bool.and_eq_true, decide_eq_true_eq] at hv
    have h1 : pyLt (PyV.str x.1) (PyV.int 0) = false := by
      simp [pyLt, PyV.rank]
    have h2 : pyLt (PyV.str 20071231) (PyV.str x.1) =
        decide (20071231 < x.1) := by
      simp [pyLt]
    rw [h1, h2, Bool.false_or, ← decide_not, decide_eq_decide]
    omega
  · intro p hp
    unfold truncate_period
    refine List.filter_congr ?_
    intro x hx
    have hv := hB p hp x hx
    unfold validDateNum at hv
    simp only [Bool.and_eq_true, decide_eq_true_eq] at hv
    have h1 : pyLt (PyV.str x.1) (PyV.str 20080101) =
        decide (x.1 < 20080101) := by
      simp [pyLt]
    have h2 : pyLt (PyV.str 99999999) (PyV.str x.1) = false := by
      simp [pyLt]
      omega
    rw [h1, h2, Bool.or_false]

/-- Witness for C5 at the scenario of the repository's own test
(`test_disjoin_calendars__dates`): the `A`-period keeps its `20071201`
exception and loses `20081231`. -/
theorem disjoin_calendars_cutoff_20080101_witness :
    (truncate_period
        ⟨"test1", List.replicate 7 true, PyV.str 20071213, PyV.str 20080201,
          [(20071201, 1), (20081231, 1)]⟩
        (PyV.int 0) (PyV.str 20071231)).date_exceptions = [(20071201, 1)] := by
  have h := (disjoin_calendars_cutoff_20080101
    [⟨"test1", List.replicate 7 true, PyV.str 20071213, PyV.str 20080201,
      [(20071201, 1), (20081231, 1)]⟩] [] (by decide)
    (fun p hp => absurd hp (List.not_mem_nil p))).2.2.2.2.1
    ⟨"test1", List.replicate 7 true, PyV.str 20071213, PyV.str 20080201,
      [(20071201, 1), (20081231, 1)]⟩ (by decide)
  rw [h]
  decide

theorem stop_merge_entities_ok_iff (L : ℚ) (dist : Stop → Stop → ℚ)
    (a b : Stop) :
    (∃ m, stop_merge_entities L dist a b = Except.ok m) ↔
      (dist a b ≤ L ∧ a.stop_id = b.stop_id ∧
        strLower a.stop_name = strLower b.stop_name ∧
        a.zone_id = b.zone_id ∧ a.location_type = b.location_type) := by
  unfold stop_merge_entities merge_identical merge_identical_case_insensitive
  by_cases hd : dist a b > L
  · rw [if_pos hd]
    constructor
    · rintro ⟨m, hm⟩
      exact absurd hm (by simp)
    · rintro ⟨hle, _⟩
      exact absurd hle (not_le.mpr hd)
  · rw [if_neg hd]
    have hle : dist a b ≤ L := not_lt.mp hd
    by_cases h1 : a.stop_id = b.stop_id <;>
      by_cases h2 : strLower a.stop_name = strLower b.stop_name <;>
      by_cases h3 : a.zone_id = b.zone_id <;>
      by_cases h4 : a.location_type = b.location_type <;>
      simp [h1, h2, h3, h4, hle, Bind.bind, Except.bind, Except.mapError]

theorem migrate_not_merged_shape {σ α ι : Type} [DecidableEq ι]
    (H : DataSetHooks σ α ι) (other : List α) (side : Side) (l : List α)
    (st : σ) :
    ∀ ev ∈ (migrate_not_merged H other side l st).1,
      ∃ x m, ev = mkUnmergedEvent side x m := by
  induction l generalizing st with
  | nil =>
    intro ev hev
    simp [migrate_not_merged] at hev
  | cons y ys ih =>
    intro ev hev
    simp only [migrate_not_merged, List.mem_cons] at hev
    rcases hev with hev | hev
    · exact ⟨y, _, hev⟩
    · exact ih _ ev hev

/-- C9: every `(a, b, merged_stop)` triple collected by `StopMerger._add`
for a merged pair satisfies `a.zone_id == b.zone_id` - the assertion at the
head of the zone fix-up loop of `StopMerger.merge_data_sets` can never
fire, because a pair is recorded as merged only when
`StopMerger._merge_entities` succeeded and its scheme merges `zone_id` with
`_merge_identical`. -/
theorem stop_merged_assert_zone_equal (L : ℚ) (dist : Stop → Stop → ℚ)
    (A B : List Stop) (st : FeedMergerState) :
    ∀ t ∈ merged_triples (merge_same_id (stopHooks L dist) A B st).adds,
      t.1.zone_id = t.2.1.zone_id := by
  intro t ht
  rcases List.mem_filterMap.mp ht with ⟨ev, hev, hmatch⟩
  cases ha : ev.aEnt with
  | none =>
    rw [ha] at hmatch
    simp at hmatch
  | some a0 =>
    cases hb : ev.bEnt with
    | none =>
      rw [ha, hb] at hmatch
      simp at hmatch
    | some b0 =>
      rw [ha, hb] at hmatch
      simp only [Option.some.injEq] at hmatch
      rw [merge_same_id_adds_def] at hev
      rcases List.mem_append.mp hev with hev' | hev'
      · rcases List.mem_append.mp hev' with hev'' | hev''
        · rcases (same_id_loop1_adds (stopHooks L dist) B A
              ⟨[], [], [], [], 0⟩ ev).mp hev'' with h | ⟨y, _, b1, m1, _, hok, hevshape⟩
          · simp at h
          · have hya : y = a0 := by
              rw [hevshape] at ha
              simpa using ha
            have hbb : b1 = b0 := by
              rw [hevshape] at hb
              simpa using hb
            subst hya
            subst hbb
            have hzone := ((stop_merge_entities_ok_iff L dist y b1).mp
              ⟨m1, hok⟩).2.2.2.1
            rw [← hmatch]
            exact hzone
        · rcases migrate_not_merged_shape _ _ _ _ _ ev hev'' with ⟨x, m, hx⟩
          rw [hx] at hb
          simp [mkUnmergedEvent] at hb
      · rcases migrate_not_merged_shape _ _ _ _ _ ev hev' with ⟨x, m, hx⟩
        rw [hx] at ha
        simp [mkUnmergedEvent] at ha

/-- Witness for C9 at the concrete merging scenario: the merged triple of
`stopA`/`stopB` (whose merged stop is `stopB` itself) has equal zone ids. -/
theorem stop_merged_assert_zone_equal_witness :
    stopA.zone_id = stopB.zone_id :=
  stop_merged_assert_zone_equal 10 (fun _ _ => 1) [stopA] [stopB] ⟨1⟩
    (stopA, stopB, stopB) (by decide)

/-- C4: a same-id stop pair merges iff the names agree case-insensitively,
the zone ids and location types agree, and the distance is within
`largest_stop_distance`; with the threshold at `10`, the concrete pair `1` m
apart yields exactly one output stop, while the same pair `20` m apart
yields two output stops with distinct, non-colliding ids. -/
theorem stop_merge_conditions_and_distance_scenarios :
    (∀ (L : ℚ) (dist : Stop → Stop → ℚ) (a b : Stop),
      a.stop_id = b.stop_id →
      ((∃ m, stop_merge_entities L dist a b = Except.ok m) ↔
        (dist a b ≤ L ∧ strLower a.stop_name = strLower b.stop_name ∧
          a.zone_id = b.zone_id ∧ a.location_type = b.location_type))) ∧
    (stop_merge_data_sets 10 (fun _ _ => 1) [stopA] [stopB]
        ⟨1⟩).1.output.length = 1 ∧
    ((stop_merge_data_sets 10 (fun _ _ => 20) [stopA] [stopB]
        ⟨1⟩).1.output.length = 2 ∧
      ((stop_merge_data_sets 10 (fun _ _ => 20) [stopA] [stopB]
        ⟨1⟩).1.output.map Stop.stop_id).Nodup) := by
  refine ⟨?_, by decide, by decide, by decide⟩
  intro L dist a b hid
  rw [stop_merge_entities_ok_iff]
  constructor
  · rintro ⟨hd, _, hn, hz, hl⟩
    exact ⟨hd, hn, hz, hl⟩
  · rintro ⟨hd, hn, hz, hl⟩
    exact ⟨hd, hid, hn, hz, hl⟩

/-- Witness for C4: the 1 m pair satisfies all four conditions, so the merge
succeeds. -/
theorem stop_merge_conditions_and_distance_scenarios_witness :
    ∃ m, stop_merge_entities 10 (fun _ _ => 1) stopA stopB = Except.ok m :=
  (stop_merge_conditions_and_distance_scenarios.1 10 (fun _ _ => 1) stopA
    stopB (by decide)).mpr (by decide)

theorem mem_pySetInsert {γ : Type} [DecidableEq γ] (s : List γ) (x y : γ) :
    y ∈ pySetInsert s x ↔ y ∈ s ∨ y = x := by
  unfold pySetInsert
  by_cases h : x ∈ s
  · rw [if_pos h]
    constructor
    · exact fun hy => Or.inl hy
    · rintro (hy | hy)
      · exact hy
      · rw [hy]
        exact h
  · rw [if_neg h]
    simp

theorem nodup_pySetInsert {γ : Type} [DecidableEq γ] (s : List γ) (x : γ)
    (hs : s.Nodup) : (pySetInsert s x).Nodup := by
  unfold pySetInsert
  by_cases h : x ∈ s
  · rw [if_pos h]
    exact hs
  · rw [if_neg h]
    rw [List.nodup_append]
    exact ⟨hs, List.nodup_singleton x, by simpa using fun hc => h hc⟩

theorem mem_insert_rule_list (tr : FareRuleTranslation) (rs : List FareRule)
    (acc) (t) :
    t ∈ insert_rule_list tr rs acc ↔
      t ∈ acc ∨ ∃ r ∈ rs, translate_fare_rule tr r = t := by
  induction rs generalizing acc with
  | nil => simp [insert_rule_list]
  | cons r rs ih =>
    simp only [insert_rule_list]
    rw [ih, mem_pySetInsert]
    simp only [List.mem_cons]
    constructor
    · rintro ((h | h) | ⟨r0, h0, ht⟩)
      · exact Or.inl h
      · exact Or.inr ⟨r, Or.inl rfl, h.symm⟩
      · exact Or.inr ⟨r0, Or.inr h0, ht⟩
    · rintro (h | ⟨r0, (h0 | h0), ht⟩)
      · exact Or.inl (Or.inl h)
      · subst h0
        exact Or.inl (Or.inr ht.symm)
      · exact Or.inr ⟨r0, h0, ht⟩

theorem nodup_insert_rule_list (tr : FareRuleTranslation)
    (rs : List FareRule) (acc) (hacc : acc.Nodup) :
    (insert_rule_list tr rs acc).Nodup := by
  induction rs generalizing acc with
  | nil => exact hacc
  | cons r rs ih =>
    simp only [insert_rule_list]
    exact ih _ (nodup_pySetInsert _ _ hacc)

theorem mem_insert_fare_list (tr : FareRuleTranslation) (fs : List FareInfo)
    (acc) (t) :
    t ∈ insert_fare_list tr fs acc ↔
      t ∈ acc ∨ ∃ f ∈ fs, ∃ r ∈ f.rules, translate_fare_rule tr r = t := by
  induction fs generalizing acc with
  | nil => simp [insert_fare_list]
  | cons f fs ih =>
    simp only [insert_fare_list]
    rw [ih, mem_insert_rule_list]
    simp only [List.mem_cons]
    constructor
    · rintro ((h | ⟨r, hr, ht⟩) | ⟨f0, h0, hrest⟩)
      · exact Or.inl h
      · exact Or.inr ⟨f, Or.inl rfl, r, hr, ht⟩
      · exact Or.inr ⟨f0, Or.inr h0, hrest⟩
    · rintro (h | ⟨f0, (h0 | h0), hrest⟩)
      · exact Or.inl (Or.inl h)
      · subst h0
        exact Or.inl (Or.inr hrest)
      · exact Or.inr ⟨f0, h0, hrest⟩

theorem nodup_insert_fare_list (tr : FareRuleTranslation)
    (fs : List FareInfo) (acc) (hacc : acc.Nodup) :
    (insert_fare_list tr fs acc).Nodup := by
  induction fs generalizing acc with
  | nil => exact hacc
  | cons f fs ih =>
    simp only [insert_fare_list]
    exact ih _ (nodup_insert_rule_list _ _ _ hacc)

/-- C8: `FareRuleMerger.merge_data_sets` emits exactly one output fare rule
per distinct translated `(fare_id, route_id, origin_id, destination_id,
contains_id)` tuple over both feeds, and records `fare_rules_broken` iff at
least one tuple exists; the concrete `{(f1,r1)}` / `{(f1,r1),(f3,r1)}`
scenario (identity translations) yields exactly 2 fare rules plus the
warning. -/
theorem fare_rule_union_semantics (aFares bFares : List FareInfo)
    (trA trB : FareRuleTranslation) :
    (fare_rule_merge_data_sets aFares bFares trA trB).1.Nodup ∧
    (∀ t, t ∈ (fare_rule_merge_data_sets aFares bFares trA trB).1 ↔
      ((∃ f ∈ aFares, ∃ r ∈ f.rules, translate_fare_rule trA r = t) ∨
        (∃ f ∈ bFares, ∃ r ∈ f.rules, translate_fare_rule trB r = t))) ∧
    ((fare_rule_merge_data_sets aFares bFares trA trB).2 =
        [MergeProblem.fareRulesBroken] ↔
      (fare_rule_merge_data_sets aFares bFares trA trB).1 ≠ []) := by
  refine ⟨?_, ?_, ?_⟩
  · exact nodup_insert_fare_list _ _ _ (nodup_insert_fare_list _ _ _
      (List.nodup_nil))
  · intro t
    show t ∈ fare_rule_tuples aFares bFares trA trB ↔ _
    unfold fare_rule_tuples
    rw [mem_insert_fare_list, mem_insert_fare_list]
    constructor
    · rintro ((h | h) | h)
      · simp at h
      · exact Or.inl h
      · exact Or.inr h
    · rintro (h | h)
      · exact Or.inl (Or.inr h)
      · exact Or.inr h
  · show (if fare_rule_tuples aFares bFares trA trB = [] then []
      else [MergeProblem.fareRulesBroken]) = [MergeProblem.fareRulesBroken] ↔ _
    have h1 : (fare_rule_merge_data_sets aFares bFares trA trB).1 =
      fare_rule_tuples aFares bFares trA trB := rfl
    by_cases h : fare_rule_tuples aFares bFares trA trB = []
    · rw [if_pos h, h1, h]
      simp
    · rw [if_neg h, h1]
      simp [h]

/-- Witness for C8 at the spec's concrete scenario: feed A's `f1 → (f1, r1)`
and feed B's `f1 → (f1, r1)`, `f3 → (f3, r1)` union to exactly two distinct
tuples with the warning recorded. -/
theorem fare_rule_union_semantics_witness :
    ((fare_rule_merge_data_sets
        [⟨"f1", [⟨"f1", some "r1", none, none, none⟩]⟩]
        [⟨"f1", [⟨"f1", some "r1", none, none, none⟩]⟩,
         ⟨"f3", [⟨"f3", some "r1", none, none, none⟩]⟩]
        ⟨id, id, id⟩ ⟨id, id, id⟩).1.length = 2 ∧
      (fare_rule_merge_data_sets
        [⟨"f1", [⟨"f1", some "r1", none, none, none⟩]⟩]
        [⟨"f1", [⟨"f1", some "r1", none, none, none⟩]⟩,
         ⟨"f3", [⟨"f3", some "r1", none, none, none⟩]⟩]
        ⟨id, id, id⟩ ⟨id, id, id⟩).2 = [MergeProblem.fareRulesBroken]) ∧
    (fare_rule_merge_data_sets
        [⟨"f1", [⟨"f1", some "r1", none, none, none⟩]⟩]
        [⟨"f1", [⟨"f1", some "r1", none, none, none⟩]⟩,
         ⟨"f3", [⟨"f3", some "r1", none, none, none⟩]⟩]
        ⟨id, id, id⟩ ⟨id, id, id⟩).1.Nodup := by
  refine ⟨by decide, ?_⟩
  exact (fare_rule_union_semantics
    [⟨"f1", [⟨"f1", some "r1", none, none, none⟩]⟩]
    [⟨"f1", [⟨"f1", some "r1", none, none, none⟩]⟩,
     ⟨"f3", [⟨"f3", some "r1", none, none, none⟩]⟩]
    ⟨id, id, id⟩ ⟨id, id, id⟩).1

end Merge
